import Mathlib

/-!
# soundboard.c: a shallow embedding

The program is a single C file built on SDL3.  Its whole state is a table of
32 `WaveData` records, 32 press counters and one advisory string.  The SDL
library is outside the program: every SDL call that returns something the
program looks at is an input of the model (an "outcome"), and every SDL call
that acts on an audio stream is recorded in a trace of `Call`s.

Conventions for C arithmetic:

* `Uint64` values are naturals; `Uint64` subtraction is modular (`u64sub`).
* conversions between integer types are modular (`sizeT`, `toInt32`);
* arithmetic on `int` is arithmetic on `Int`: signed overflow is undefined
  in C and is not given a meaning here;
* `float` is IEEE-754 binary32 with round-to-nearest-even (`F32`), every
  operation rounded on its own; a `float` converted to an integer type is
  truncated toward zero;
* a read or a write outside an array is a `Fault`, not a value: it ends the
  function and the callback it happens in, and nothing is said about what
  comes after it.
-/

namespace Soundboard

/-! ## Integer conversions -/

/-- The constant `MAX_WAVES`. -/
abbrev MAX_WAVES : Nat := 32

/-- Conversion of an `int` to `size_t` (64 bit): reduction modulo 2^64. -/
def sizeT (x : Int) : Nat := (x % 2 ^ 64).toNat

/-- Conversion of an integer to `int`: the two's complement value of the low 32 bits. -/
def toInt32 (x : Int) : Int := (x + 2 ^ 31) % 2 ^ 32 - 2 ^ 31

/-- Subtraction of two `Uint64` values. -/
def u64sub (a b : Nat) : Nat := (((a : Int) - (b : Int)) % 2 ^ 64).toNat

/-! ## IEEE-754 binary32

Every finite binary32 number is an integer multiple of 2^(-149), the smallest
subnormal.  `F32.fin v` is the number `v * 2^(-149)`; the finite numbers are
those `v` whose magnitude has at most 24 significant bits and is at most
`F32.maxFin`.  The sign of zero is not tracked: the program never divides by
a variable, so it cannot be observed. -/

/-- Values of type `float`. -/
inductive F32 where
  | fin (v : Int)
  | inf (neg : Bool)
  | nan
deriving DecidableEq, Repr

namespace F32

/-- Nearest integer to `n / d`, ties to the even one. -/
def roundHalfEven (n d : Nat) : Nat :=
  let q := n / d
  let r := n % d
  if 2 * r < d then q
  else if d < 2 * r then q + 1
  else if q % 2 = 0 then q else q + 1

/-- The number of low bits that `q` has beyond 24: the least `s` with
`q / 2^s < 2^24` (the first argument bounds the recursion). -/
def dropBits : Nat → Nat → Nat
  | 0, _ => 0
  | fuel + 1, q => if q < 2 ^ 24 then 0 else dropBits fuel (q / 2) + 1

/-- The magnitude `n / d` (in units of 2^(-149)) rounded to 24 significant
bits, and to a whole unit in the subnormal range. -/
def roundMag (n d : Nat) : Nat :=
  let s := dropBits (n / d) (n / d)
  roundHalfEven n (d * 2 ^ s) * 2 ^ s

/-- The largest finite binary32 number, (2^24 - 1) * 2^104, in units of 2^(-149). -/
def maxFin : Nat := (2 ^ 24 - 1) * 2 ^ 253

/-- Rounding of the exact value `num / den` (in units of 2^(-149)) to binary32. -/
def round (num : Int) (den : Nat) : F32 :=
  let m := roundMag num.natAbs den
  if maxFin < m then inf (decide (num < 0))
  else fin (if num < 0 then -(m : Int) else (m : Int))

/-- One unit of the integer scale: 1.0 is `fin unit`. -/
def unit : Nat := 2 ^ 149

/-- Conversion of an integer to `float`. -/
def ofInt (x : Int) : F32 := round (x * unit) 1

/-- The literal `0.5f`. -/
def half : F32 := fin (2 ^ 148)

/-- Negation. -/
def neg : F32 → F32
  | fin v => fin (-v)
  | inf s => inf (!s)
  | nan => nan

/-- Addition of two floats. -/
def add : F32 → F32 → F32
  | fin a, fin b => round (a + b) 1
  | fin _, inf s => inf s
  | inf s, fin _ => inf s
  | inf s, inf t => if s = t then inf s else nan
  | _, _ => nan

/-- Subtraction of two floats. -/
def sub (a b : F32) : F32 := add a (neg b)

/-- Multiplication of two floats. -/
def mul : F32 → F32 → F32
  | fin a, fin b => round (a * b) unit
  | fin a, inf s => if a = 0 then nan else inf (xor (decide (a < 0)) s)
  | inf s, fin b => if b = 0 then nan else inf (xor s (decide (b < 0)))
  | inf s, inf t => inf (xor s t)
  | _, _ => nan

/-- Division of two floats. -/
def div : F32 → F32 → F32
  | fin a, fin b =>
    if b = 0 then (if a = 0 then nan else inf (decide (a < 0)))
    else round (a * unit * b.sign) b.natAbs
  | fin _, inf _ => fin 0
  | inf s, fin b => inf (xor s (decide (b < 0)))
  | _, _ => nan

/-- Conversion of a float to an integer type: the fractional part is
discarded.  Converting an infinity or a NaN is undefined in C; the program
only converts products and quotients of finite integers. -/
def toInt : F32 → Int
  | fin v => Int.tdiv v unit
  | _ => 0

/-- The rational number a finite float stands for. -/
def toRat : F32 → Option ℚ
  | fin v => some ((v : ℚ) / (unit : ℚ))
  | _ => none

end F32

/-! ## Data model -/

/-- Sample formats: `SDL_AUDIO_F32` and all the others (by their SDL tag). -/
inductive AudioFormat where
  | f32
  | other (tag : Nat)
deriving DecidableEq, Repr

/-- The fields of `SDL_AudioSpec`. -/
structure SDL_AudioSpec where
  format : AudioFormat
  channels : Int
  freq : Int
deriving DecidableEq, Repr

/-- The record `WaveData`.  A pointer is `none` when it is `NULL`; a stream
is known by its handle, a sample buffer by its contents seen as `float`s. -/
structure WaveData where
  stream : Option Nat
  spec : SDL_AudioSpec
  desc : Option String
  buffer : Option (List F32)
  buffer_len : Int
  r : Nat
  g : Nat
  b : Nat
  start_ticks : Nat
  total_ticks : Nat
deriving DecidableEq, Repr

/-- A zero-initialised `WaveData`, as every entry of the static table starts. -/
def WaveData.zero : WaveData :=
  { stream := none, spec := { format := .other 0, channels := 0, freq := 0 },
    desc := none, buffer := none, buffer_len := 0, r := 0, g := 0, b := 0,
    start_ticks := 0, total_ticks := 0 }

/-- The globals of the program that outlive a callback. -/
structure State where
  audio_devid : Nat
  failure_string : Option String
  joysticks : List (Option Nat)
  waves : Fin MAX_WAVES → WaveData
  buttons : Fin MAX_WAVES → Int

/-- The state at program start: all statics are zero. -/
def State.initial : State :=
  { audio_devid := 0, failure_string := none, joysticks := List.replicate 32 none,
    waves := fun _ => WaveData.zero, buttons := fun _ => 0 }

/-- Calls into the SDL audio and timer API. -/
inductive Call where
  | GetAudioStreamAvailable (stream : Nat)
  | ClearAudioStream (stream : Nat)
  | GetTicks
  | PutAudioStreamData (stream : Nat) (buf : Option (List F32)) (len : Int)
  | FlushAudioStream (stream : Nat)
deriving DecidableEq, Repr

/-- What one run of `HandleButton` does besides changing the state: the
array elements it indexes and the SDL calls it makes, in order. -/
inductive Event where
  | buttonsAt (i : Fin MAX_WAVES)
  | wavesAt (i : Fin MAX_WAVES)
  | sdl (c : Call)
deriving DecidableEq, Repr

/-- Predicate: the event is an SDL call. -/
def Event.isCall : Event → Bool
  | .sdl _ => true
  | _ => false

/-- What SDL answers during one `HandleButton`: the byte count
`SDL_GetAudioStreamAvailable` reports for a stream, and `SDL_GetTicks`. -/
structure Answers where
  available : Nat → Int
  ticks : Nat

/-! ## HandleButton -/

/-- Lines 213-226 of `HandleButton`, for a slot `b` that passed the range check. -/
def handleSlot (env : Answers) (st : State) (b : Fin MAX_WAVES) (down : Bool) :
    State × List Event :=
  let st1 : State :=
    { st with buttons := Function.update st.buttons b (st.buttons b + (if down then 1 else -1)) }
  let ev1 : List Event := Event.buttonsAt b :: (if down then [Event.buttonsAt b] else [])
  if down && decide (st1.buttons b = 1) then
    let wav := st1.waves b
    match wav.stream with
    | none => (st1, ev1 ++ [Event.wavesAt b])
    | some strm =>
      let available := env.available strm
      if available = 0 then
        ({ st1 with waves := Function.update st1.waves b { wav with start_ticks := env.ticks } },
         ev1 ++ [Event.wavesAt b, .sdl (.GetAudioStreamAvailable strm), .sdl (.ClearAudioStream strm),
                 .sdl .GetTicks, .sdl (.PutAudioStreamData strm wav.buffer wav.buffer_len),
                 .sdl (.FlushAudioStream strm)])
      else
        ({ st1 with waves := Function.update st1.waves b { wav with start_ticks := 0 } },
         ev1 ++ [Event.wavesAt b, .sdl (.GetAudioStreamAvailable strm), .sdl (.ClearAudioStream strm)])
  else (st1, ev1)

/-- The function `HandleButton` (lines 207-227).  The range check compares
`button` with `SDL_arraysize(waves)`, a `size_t`, so `button` is converted. -/
def HandleButton (env : Answers) (st : State) (button : Int) (down : Bool) :
    State × List Event :=
  if h : MAX_WAVES ≤ sizeT button then (st, [])
  else handleSlot env st ⟨sizeT button, Nat.lt_of_not_le h⟩ down

/-- A run of `HandleButton` calls on the same slot, each with its own SDL
answers; the traces are concatenated. -/
def pressSeq (st : State) (button : Int) : List (Answers × Bool) → State × List (List Event)
  | [] => (st, [])
  | (env, down) :: rest =>
    let r := HandleButton env st button down
    let r2 := pressSeq r.1 button rest
    (r2.1, r.2 :: r2.2)

/-! ## SDL_AppInit -/

/-- The duration stored at line 133:
`(Uint64) ((((buffer_len / sizeof (float)) / 2) / 44100.0f) * 1000.0f)`.
The first two divisions are `size_t` divisions, the quotient is converted to
`float`, divided and multiplied in `float`, and truncated. -/
def totalTicks (buffer_len : Int) : Nat :=
  (F32.mul (F32.div (F32.ofInt ((sizeT buffer_len / 4 / 2 : Nat) : Int)) (F32.ofInt 44100))
    (F32.ofInt 1000)).toInt.toNat

/-- What `SDL_LoadWAV` hands back when it succeeds. -/
structure WavFile where
  spec : SDL_AudioSpec
  samples : List F32
  len : Nat

/-- What the file system and SDL answer while slot `i` is loaded (lines 107-162). -/
structure SlotOutcome where
  pathOk : Bool
  wav : Option WavFile
  converted : Option (List F32 × Int)
  stream : Option Nat
  bindOk : Bool
  txtPathOk : Bool
  txt : Option String

/-- What SDL answers during `SDL_AppInit`. -/
structure InitOutcome where
  initVideo : Bool
  initAudio : Bool
  initJoystick : Bool
  windowOk : Bool
  devid : Nat
  error : String
  sticks : List (Option Nat)
  slots : Fin MAX_WAVES → SlotOutcome

/-- The two results `SDL_AppInit` can return. -/
inductive SDL_AppResult where
  | SDL_APP_CONTINUE
  | SDL_APP_FAILURE
deriving DecidableEq, Repr

/-- The text up to the first occurrence of `c`: the effect of
`ptr = SDL_strchr(desc, c); if (ptr) *ptr = 0`. -/
def cutAt (c : Char) (s : String) : String := String.mk (s.toList.takeWhile (fun x => x != c))

/-- The idiom of lines 75-79, 98-102 and 168-172: an advisory is kept only
when none is set yet. -/
def setFailure (cur : Option String) (str : String) : Option String :=
  match cur with
  | none => some str
  | some s => some s

/-- The format all clips are normalised to. -/
def targetSpec : SDL_AudioSpec := { format := .f32, channels := 2, freq := 44100 }

/-- The body of the loading loop (lines 107-162) for slot `i`: the new record
and whether `loaded_a_wav` is set. -/
def loadSlot (o : SlotOutcome) (i : Nat) (w : WaveData) : WaveData × Bool :=
  if !o.pathOk then (w, false)
  else
    match o.wav with
    | none => (w, false)
    | some file =>
      let okay0 := decide (file.spec.format = .f32) && decide (file.spec.channels = 2)
        && decide (file.spec.freq = 44100)
      let w1 : WaveData :=
        if okay0 then
          { w with buffer := some file.samples, buffer_len := toInt32 file.len, spec := file.spec }
        else
          match o.converted with
          | some (data, len) => { w with spec := targetSpec, buffer := some data, buffer_len := len }
          | none => { w with spec := targetSpec, buffer := none, buffer_len := 0 }
      let okay := okay0 || o.converted.isSome
      if !okay then (w1, false)
      else if !o.bindOk then (w1, false)
      else
        let w2 : WaveData :=
          { w1 with stream := o.stream, total_ticks := totalTicks w1.buffer_len }
        let w3 : WaveData :=
          if o.txtPathOk then
            { w2 with desc := o.txt.map (fun d => cutAt '\n' (cutAt '\r' d)) }
          else w2
        let w4 : WaveData :=
          match w3.desc with
          | some _ => w3
          | none => { w3 with desc := some (toString i ++ ".wav") }
        (w4, true)

/-- The loading loop (lines 105-163) over the given slots. -/
def loadLoop (slots : Fin MAX_WAVES → SlotOutcome) (l : List (Fin MAX_WAVES))
    (acc : (Fin MAX_WAVES → WaveData) × Bool) : (Fin MAX_WAVES → WaveData) × Bool :=
  l.foldl (fun a i =>
    let r := loadSlot (slots i) i.val (a.1 i)
    (Function.update a.1 i r.1, a.2 || r.2)) acc

/-- The table `button_colors` (lines 184-195), without the alpha channel. -/
def button_colors : List (Nat × Nat × Nat) :=
  [(255, 255, 255), (255, 0, 0), (0, 255, 0), (0, 0, 255), (255, 255, 0),
   (255, 255, 255), (255, 0, 0), (0, 255, 0), (0, 0, 255), (255, 255, 0)]

/-- The body of the colouring loop (lines 198-200) for index `i`. -/
def colorStep (colors : List (Nat × Nat × Nat)) (waves : Fin MAX_WAVES → WaveData) (i : Nat) :
    Fin MAX_WAVES → WaveData :=
  if h : i < MAX_WAVES then
    match colors.get? i with
    | some c => Function.update waves ⟨i, h⟩ { waves ⟨i, h⟩ with r := c.1, g := c.2.1, b := c.2.2 }
    | none => waves
  else waves

/-- The colouring loop (lines 197-201): `i` runs over the entries of `button_colors`. -/
def colorLoop (colors : List (Nat × Nat × Nat)) (waves : Fin MAX_WAVES → WaveData) :
    Fin MAX_WAVES → WaveData :=
  (List.range colors.length).foldl (colorStep colors) waves

/-- The function `SDL_AppInit` (lines 28-205), run on the state `st`. -/
def SDL_AppInit (o : InitOutcome) (st : State) : SDL_AppResult × State :=
  if !o.initVideo then (.SDL_APP_FAILURE, st)
  else if !o.initAudio then (.SDL_APP_FAILURE, st)
  else if !o.initJoystick then (.SDL_APP_FAILURE, st)
  else if !o.windowOk then (.SDL_APP_FAILURE, st)
  else
    let fs1 : Option String :=
      if o.devid = 0 then setFailure st.failure_string ("Couldn't open audio device: " ++ o.error)
      else st.failure_string
    let opened := o.sticks.take 32
    let opened_a_stick := opened.any Option.isSome
    let fs2 : Option String :=
      if !opened_a_stick then setFailure fs1 "Didn't open any joystick devices!" else fs1
    let loaded := loadLoop o.slots (List.finRange MAX_WAVES) (st.waves, false)
    let fs3 : Option String :=
      if !loaded.2 then setFailure fs2 "Didn't load any wave files!" else fs2
    (.SDL_APP_CONTINUE,
     { st with audio_devid := o.devid, failure_string := fs3,
               joysticks := opened ++ st.joysticks.drop opened.length,
               waves := colorLoop button_colors loaded.1 })

/-! ## RenderWaveform -/

/-- A point `SDL_FPoint`. -/
structure SDL_FPoint where
  x : F32
  y : F32
deriving DecidableEq, Repr

/-- Rendering calls. -/
inductive Draw where
  | SetRenderDrawColor (r g b a : Nat)
  | RenderClear
  | RenderFillRect (x y w h : F32)
  | RenderDebugText (x y : F32) (text : String)
  | RenderLines (points : List SDL_FPoint)
  | RenderPresent
deriving DecidableEq, Repr

/-- The ways `RenderWaveform` can leave defined behaviour. -/
inductive Fault where
  | divisionByZero
  | readOutOfBounds (index : Int)
  | writeOutOfBounds (index : Int)
  | assertion
deriving DecidableEq, Repr

/-- The float at index `idx` of a buffer. -/
def readSample (buf : List F32) (idx : Int) : Except Fault F32 :=
  if idx < 0 then .error (.readOutOfBounds idx)
  else
    match buf.get? idx.toNat with
    | some v => .ok v
    | none => .error (.readOutOfBounds idx)

/-- The assignment `points[idx] = p`. -/
def writePoint (points : List SDL_FPoint) (idx : Int) (p : SDL_FPoint) :
    Except Fault (List SDL_FPoint) :=
  if idx < 0 then .error (.writeOutOfBounds idx)
  else if idx.toNat < points.length then .ok (points.set idx.toNat p)
  else .error (.writeOutOfBounds idx)

/-- The locals the loop of lines 282-292 carries from one round to the next. -/
structure LoopState where
  prevx : F32
  pointidx : Int
  points : List SDL_FPoint
deriving DecidableEq, Repr

/-- The vertical position of line 286: `(h * 0.5f) - (h * (val * 0.5f))`. -/
def yOf (h : Int) (val : F32) : F32 :=
  F32.sub (F32.mul (F32.ofInt h) F32.half) (F32.mul (F32.ofInt h) (F32.mul val F32.half))

/-- The value of line 284: `(bptr[0] + bptr[1]) / 2.0f`. -/
def average (b0 b1 : F32) : F32 := F32.div (F32.add b0 b1) (F32.ofInt 2)

/-- The loop of lines 282-292; `base` is the float index the advanced pointer
`buffer` stands at, the first argument the number of rounds left, `i` the
loop counter. -/
def waveLoop (buf : List F32) (base skip w h : Int) : Nat → Int → LoopState → Except Fault LoopState
  | 0, _, s => .ok s
  | n + 1, i, s => do
    let idx := base + (i * skip) * 2
    let b0 ← readSample buf idx
    let b1 ← readSample buf (idx + 1)
    let val := average b0 b1
    let x := F32.add s.prevx (F32.ofInt 2)
    let y := yOf h val
    if s.pointidx < w + 2 then
      let points ← writePoint s.points s.pointidx { x := x, y := y }
      waveLoop buf base skip w h n (i + 1) { prevx := x, pointidx := s.pointidx + 1, points := points }
    else .error .assertion

/-- The local `frame_offset` of line 265. -/
def frameOffset (total_ticks elapsed : Nat) : Int :=
  let ticks_available := toInt32 (u64sub total_ticks elapsed)
  let frames_per_ms := F32.div (F32.ofInt 44100) (F32.ofInt 1000)
  (F32.mul frames_per_ms (F32.ofInt ticks_available)).toInt

/-- The local `frames` of line 274, from `frame_offset`. -/
def windowFrames (frame_offset : Int) : Int :=
  let available := frame_offset * 8
  let buflen := toInt32 ((min (sizeT available) (4096 * 4 * 2) : Nat) : Int)
  toInt32 ((sizeT buflen / 4 / 2 : Nat) : Int)

/-- The function `RenderWaveform` (lines 257-298).  The stack array `points`
has `w + 2` entries (their initial contents are never read: every entry that
is drawn has been written); `SDL_min` compares and selects in `size_t`; the
pointer `buffer` advanced by `available` bytes stands at float index
`available / 4`; `SDL_RenderLines` gets the first `pointidx` points. -/
def RenderWaveform (wav : WaveData) (w h : Int) (elapsed : Nat) : Except Fault (List Draw) :=
  let color := Draw.SetRenderDrawColor wav.r wav.g wav.b 255
  let frame_offset := frameOffset wav.total_ticks elapsed
  let frame_size : Int := 4 * 2
  let available := frame_offset * frame_size
  let buflen := toInt32 ((min (sizeT available) (4096 * 4 * 2) : Nat) : Int)
  match wav.buffer with
  | none => .ok [color]
  | some buf =>
    if buflen = 0 then .ok [color]
    else do
      let frames := toInt32 ((sizeT buflen / 4 / 2 : Nat) : Int)
      if w * 2 = 0 then .error .divisionByZero
      else
        let skip := Int.tdiv frames (w * 2)
        let points0 ← writePoint (List.replicate (w + 2).toNat { x := F32.fin 0, y := F32.fin 0 }) 0
          { x := F32.fin 0, y := F32.mul (F32.ofInt h) F32.half }
        let last ← waveLoop buf (available / 4) skip w h (w + 1).toNat 0
          { prevx := F32.fin 0, pointidx := 1, points := points0 }
        .ok [color, Draw.RenderLines (last.points.take last.pointidx.toNat)]

/-! ## SDL_AppIterate -/

/-- The SDL constant `SDL_DEBUG_TEXT_FONT_CHARACTER_SIZE`, taken from the SDL headers. -/
def SDL_DEBUG_TEXT_FONT_CHARACTER_SIZE : Nat := 8

/-- What one frame shows: rendering calls, and for each call of
`RenderWaveform` that returned, its arguments and what came of it. -/
inductive FrameItem where
  | draw (d : Draw)
  | waveform (slot : Fin MAX_WAVES) (w h : Int) (elapsed : Nat) (result : Except Fault (List Draw))

/-- The bars of the held buttons (lines 308-320). -/
def barsPass (st : State) (winw : Int) : List FrameItem :=
  let w := F32.div (F32.ofInt winw) (F32.ofInt 32)
  let h := F32.ofInt 30
  ((List.finRange MAX_WAVES).foldl (fun (acc : List FrameItem × F32) i =>
    let items :=
      if 0 < st.buttons i then
        [FrameItem.draw (.SetRenderDrawColor (st.waves i).r (st.waves i).g (st.waves i).b 255),
         FrameItem.draw (.RenderFillRect acc.2 (F32.fin 0) w h)]
      else []
    (acc.1 ++ items, F32.add acc.2 w)) ([], F32.fin 0)).1

/-- The labels of the loaded clips (lines 322-331). -/
def labelsPass (st : State) : List FrameItem :=
  ((List.finRange MAX_WAVES).foldl (fun (acc : List FrameItem × F32) i =>
    match (st.waves i).desc with
    | some d =>
      (acc.1 ++ [FrameItem.draw (.SetRenderDrawColor (st.waves i).r (st.waves i).g (st.waves i).b 255),
                 FrameItem.draw (.RenderDebugText (F32.ofInt 50) acc.2 d)],
       F32.add acc.2 (F32.ofInt (SDL_DEBUG_TEXT_FONT_CHARACTER_SIZE + 2)))
    | none => acc) ([], F32.ofInt 50)).1

/-- One round of the loop of lines 334-346, for slot `i`.  A fault inside
`RenderWaveform` ends the pass. -/
def playingStep (now : Nat) (winw winh : Int) (acc : (Fin MAX_WAVES → WaveData) × List FrameItem)
    (i : Fin MAX_WAVES) : Except Fault ((Fin MAX_WAVES → WaveData) × List FrameItem) :=
  let wav := acc.1 i
  if wav.start_ticks = 0 then .ok acc
  else
    let elapsed := u64sub now wav.start_ticks
    if wav.total_ticks ≤ elapsed then
      .ok (Function.update acc.1 i { wav with start_ticks := 0 }, acc.2)
    else
      match RenderWaveform wav winw winh elapsed with
      | .error e => .error e
      | .ok draws => .ok (acc.1, acc.2 ++ [FrameItem.waveform i winw winh elapsed (.ok draws)])

/-- The playing-slot pass (lines 333-346) over the given slots, in order. -/
def playingPass (now : Nat) (winw winh : Int) (l : List (Fin MAX_WAVES))
    (waves : Fin MAX_WAVES → WaveData) :
    Except Fault ((Fin MAX_WAVES → WaveData) × List FrameItem) :=
  l.foldlM (playingStep now winw winh) (waves, [])

/-- The advisory text (lines 348-353). -/
def failurePass (st : State) (winw winh : Int) : List FrameItem :=
  match st.failure_string with
  | none => []
  | some str =>
    let x := F32.ofInt
      ((((sizeT winw : Int) - ((SDL_DEBUG_TEXT_FONT_CHARACTER_SIZE * str.utf8ByteSize : Nat) : Int)) % 2 ^ 64) / 2)
    let y := F32.ofInt (Int.tdiv (winh - SDL_DEBUG_TEXT_FONT_CHARACTER_SIZE) 2)
    [FrameItem.draw (.SetRenderDrawColor 255 255 255 255), FrameItem.draw (.RenderDebugText x y str)]

/-- The function `SDL_AppIterate` (lines 300-357); `winw`, `winh` are what
`SDL_GetRenderOutputSize` reports and `now` what `SDL_GetTicks` returns.  A
fault in the playing-slot pass ends the frame. -/
def SDL_AppIterate (st : State) (winw winh : Int) (now : Nat) :
    Except Fault (State × List FrameItem) :=
  match playingPass now winw winh (List.finRange MAX_WAVES) st.waves with
  | .error e => .error e
  | .ok played =>
    .ok ({ st with waves := played.1 },
      [FrameItem.draw (.SetRenderDrawColor 0 0 0 255), FrameItem.draw .RenderClear]
        ++ barsPass st winw ++ labelsPass st ++ played.2 ++ failurePass st winw winh
        ++ [FrameItem.draw .RenderPresent])

/-! ## Predicates on traces -/

/-- Predicate: the trace shows the hand-over to the playback trigger, that is,
`waves[s]` is indexed or an SDL call is made. -/
def delegated (s : Fin MAX_WAVES) (tr : List Event) : Bool :=
  tr.any (fun e => decide (e = Event.wavesAt s) || e.isCall)

/-- The SDL calls of a trace, in order. -/
def callsOf (tr : List Event) : List Call :=
  tr.filterMap (fun e => match e with
    | .sdl c => some c
    | _ => none)

/-- The state `st` with the record of slot `s` replaced. -/
def State.setWave (st : State) (s : Fin MAX_WAVES) (w : WaveData) : State :=
  { st with waves := Function.update st.waves s w }

/-- The state `st` with the counter of slot `s` replaced. -/
def State.setButton (st : State) (s : Fin MAX_WAVES) (n : Int) : State :=
  { st with buttons := Function.update st.buttons s n }

/-! ## Definitions used in the statements -/

/-- A state used to exercise the theorems: slot 2 holds a loaded clip of two
stereo frames on stream 7, every other slot is empty. -/
def demoState : State :=
  State.initial.setWave 2
    { WaveData.zero with
      stream := some 7, spec := targetSpec, desc := some "2.wav",
      buffer := some [F32.fin 0, F32.fin 0, F32.fin 0, F32.fin 0], buffer_len := 16 }

/-- What the pass does to one record: `start_ticks` is cleared when the clip
is marked playing and its duration has run out. -/
def expire (now : Nat) (wav : WaveData) : WaveData :=
  if wav.start_ticks = 0 then wav
  else if wav.total_ticks ≤ u64sub now wav.start_ticks then { wav with start_ticks := 0 }
  else wav

/-- The call of `RenderWaveform` the pass makes for slot `i`, if it makes one. -/
def renderItem (now : Nat) (winw winh : Int) (waves : Fin MAX_WAVES → WaveData)
    (i : Fin MAX_WAVES) : Option FrameItem :=
  if (waves i).start_ticks ≠ 0 ∧ u64sub now (waves i).start_ticks < (waves i).total_ticks then
    some (FrameItem.waveform i winw winh (u64sub now (waves i).start_ticks)
      (RenderWaveform (waves i) winw winh (u64sub now (waves i).start_ticks)))
  else none

/-- The five colours the table `button_colors` repeats: white, red, green, blue, yellow. -/
def palette : List (Nat × Nat × Nat) :=
  [(255, 255, 255), (255, 0, 0), (0, 255, 0), (0, 0, 255), (255, 255, 0)]

/-- The colour of a record. -/
def WaveData.rgb (w : WaveData) : Nat × Nat × Nat := (w.r, w.g, w.b)

/-- The record `w` with the colour `c`. -/
def WaveData.paint (w : WaveData) (c : Nat × Nat × Nat) : WaveData :=
  { w with r := c.1, g := c.2.1, b := c.2.2 }

/-- The table of clips after the loading and colouring loops, from `ws`. -/
def loadedWaves (o : InitOutcome) (ws : Fin MAX_WAVES → WaveData) (i : Fin MAX_WAVES) : WaveData :=
  if i.val < 10 then ((loadSlot (o.slots i) i.val (ws i)).1).paint (button_colors.getD i.val (0, 0, 0))
  else (loadSlot (o.slots i) i.val (ws i)).1

/-- The advisory after a start in which the audio device, the joysticks and
the clips are tried in this order: the first complaint stays. -/
def advisory (o : InitOutcome) (cur : Option String) : Option String :=
  let fs1 := if o.devid = 0 then setFailure cur ("Couldn't open audio device: " ++ o.error) else cur
  let fs2 := if !(o.sticks.take 32).any Option.isSome then
      setFailure fs1 "Didn't open any joystick devices!" else fs1
  if !(List.finRange MAX_WAVES).any (fun i => (loadSlot (o.slots i) i.val WaveData.zero).2) then
    setFailure fs2 "Didn't load any wave files!" else fs2

/-- What can happen after start-up: a button event or a frame. -/
inductive Input where
  | button (env : Answers) (button : Int) (down : Bool)
  | frame (winw winh : Int) (now : Nat)

/-- One event: the new state and the SDL audio and timer calls made, or
the fault that ends it. -/
def step (st : State) : Input → Except Fault (State × List Call)
  | .button env b down =>
    .ok ((HandleButton env st b down).1, callsOf (HandleButton env st b down).2)
  | .frame winw winh now =>
    match SDL_AppIterate st winw winh now with
    | .error e => .error e
    | .ok r => .ok (r.1, [])

/-- A run of events from `st`; it stops at the first fault. -/
def run (st : State) : List Input → Except Fault (State × List Call)
  | [] => .ok (st, [])
  | i :: rest =>
    match step st i with
    | .error e => .error e
    | .ok r =>
      match run r.1 rest with
      | .error e => .error e
      | .ok r2 => .ok (r2.1, r.2 ++ r2.2)

/-- Predicate: no slot has a stream and none is marked playing. -/
def Inert (st : State) : Prop :=
  ∀ i : Fin MAX_WAVES, (st.waves i).stream = none ∧ (st.waves i).start_ticks = 0

instance (st : State) : Decidable (Inert st) :=
  inferInstanceAs (Decidable (∀ i : Fin MAX_WAVES,
    (st.waves i).stream = none ∧ (st.waves i).start_ticks = 0))

/-- A start-up in which everything works but no clip file exists. -/
def noClips : InitOutcome :=
  { initVideo := true, initAudio := true, initJoystick := true, windowOk := true,
    devid := 1, error := "", sticks := [some 1],
    slots := fun _ =>
      { pathOk := true, wav := none, converted := none, stream := none, bindOk := false,
        txtPathOk := true, txt := none } }

/-- The float `1.0f`. -/
def F32.one : F32 := F32.fin (2 ^ 149)

/-- The float `-1.0f`. -/
def F32.negOne : F32 := F32.fin (-(2 ^ 149))

/-- The duration formula read in exact arithmetic: the frame count
`(buffer_len / 4) / 2` (integer divisions) divided by 44100, times 1000,
truncated. -/
def exactTicks (buffer_len : Int) : Int :=
  ⌊(((buffer_len / 4 / 2 : Int) : ℚ) / 44100 * 1000)⌋

/-- The horizontal position after `k` rounds of `x = prevx + 2`, from `px`. -/
def xFrom (px : F32) (k : Nat) : F32 := (fun x => F32.add x (F32.ofInt 2))^[k] px

/-- The point drawn for the stereo frame `k` counted in strides from the
float index `base`: its height is `yOf` of the average of the two channels. -/
def pointAt (buf : List F32) (base skip h : Int) (k : Nat) (x : F32) : SDL_FPoint :=
  { x := x,
    y := yOf h (average (buf.getD (base + ((k : Int) * skip) * 2).toNat (F32.fin 0))
                        (buf.getD (base + ((k : Int) * skip) * 2 + 1).toNat (F32.fin 0))) }

/-- The point the reference definition gives for position `i`: the stereo
frame at `offset + i * stride` (floats `2 * frame` and `2 * frame + 1`), its
two channels averaged and mapped by `yOf`. -/
def refPoint (buf : List F32) (h offset stride : Int) (i : Nat) : SDL_FPoint :=
  { x := xFrom (F32.fin 0) (i + 1),
    y := yOf h (average (buf.getD (2 * (offset + (i : Int) * stride)).toNat (F32.fin 0))
                        (buf.getD (2 * (offset + (i : Int) * stride) + 1).toNat (F32.fin 0))) }

/-- The point list of the reference definition, for a window of `offset`
frames: at most 4096 frames are looked at, `stride = frames / (2 * w)`, the
list starts at `(0, h/2)` and has one point for each `i` in `0..w`. -/
def refPoints (buf : List F32) (w h offset : Int) : List SDL_FPoint :=
  let frames := min offset 4096
  let stride := frames / (2 * w)
  { x := F32.fin 0, y := F32.mul (F32.ofInt h) F32.half }
    :: (List.range (w + 1).toNat).map (refPoint buf h offset stride)

/-- The reference offset: `44.1f * t` in single precision, truncated, where
`44.1f` is the `float` quotient `44100.0f / 1000.0f`. -/
def refOffset (t : Int) : Int :=
  (F32.mul (F32.div (F32.ofInt 44100) (F32.ofInt 1000)) (F32.ofInt t)).toInt

/-- The offset read in exact arithmetic: the truncation of `44.1 * t`. -/
def exactOffset (t : Int) : Int := ⌊(441 / 10 : ℚ) * (t : ℚ)⌋

/-- A clip of one second: 44100 stereo frames of silence, loaded in slot 3
and started at tick 5000. -/
def oneSecondClip : WaveData :=
  { WaveData.zero with
    stream := some 7, spec := targetSpec, desc := some "3.wav",
    buffer := some (List.replicate 88200 (F32.fin 0)), buffer_len := 352800,
    start_ticks := 5000, total_ticks := 1000 }

/-- The state right after the press that starts the one second clip of slot
3: the clip was loaded and idle, button 3 goes down at tick 5000 and the stream
reports 0 bytes available. -/
def freshPlayback : State :=
  (HandleButton ⟨fun _ => 0, 5000⟩
    (demoState.setWave 3 { oneSecondClip with start_ticks := 0 }) (3 : Fin MAX_WAVES).val true).1

/-! ## Theorems -/

theorem sizeT_of_nonneg (x : Int) (h0 : 0 ≤ x) (h1 : x < 2 ^ 64) : sizeT x = x.toNat := by
  unfold sizeT
  rw [Int.emod_eq_of_lt h0 h1]

theorem sizeT_fin (s : Fin MAX_WAVES) : sizeT (s.val : Int) = s.val := by
  have h : ((s.val : Nat) : Int) < 2 ^ 64 := by
    have := s.isLt
    simp only [MAX_WAVES] at this
    omega
  rw [sizeT_of_nonneg _ (Int.ofNat_nonneg _) h]
  simp

theorem HandleButton_in_range (env : Answers) (st : State) (s : Fin MAX_WAVES) (down : Bool) :
    HandleButton env st (s.val : Int) down = handleSlot env st s down := by
  have hs : sizeT (s.val : Int) = s.val := sizeT_fin s
  have hlt : ¬ MAX_WAVES ≤ sizeT (s.val : Int) := by rw [hs]; exact Nat.not_le.mpr s.isLt
  unfold HandleButton
  rw [dif_neg hlt]
  congr 1
  exact Fin.ext hs

theorem handleSlot_not_rising (env : Answers) (st : State) (s : Fin MAX_WAVES) (down : Bool)
    (h : ¬ (down = true ∧ st.buttons s = 0)) :
    handleSlot env st s down =
      (st.setButton s (st.buttons s + (if down then 1 else -1)),
       Event.buttonsAt s :: (if down then [Event.buttonsAt s] else [])) := by
  unfold handleSlot State.setButton
  cases down with
  | false => simp
  | true =>
    have h0 : st.buttons s ≠ 0 := fun h0 => h ⟨rfl, h0⟩
    have h1 : ¬ (st.buttons s + 1 = 1) := by omega
    simp [h1]

theorem handleSlot_rising_null (env : Answers) (st : State) (s : Fin MAX_WAVES)
    (h0 : st.buttons s = 0) (hn : (st.waves s).stream = none) :
    handleSlot env st s true =
      (st.setButton s 1, [Event.buttonsAt s, Event.buttonsAt s, Event.wavesAt s]) := by
  unfold handleSlot State.setButton
  simp [h0, hn]

theorem handleSlot_rising_start (env : Answers) (st : State) (s : Fin MAX_WAVES) (strm : Nat)
    (h0 : st.buttons s = 0) (hs : (st.waves s).stream = some strm) (ha : env.available strm = 0) :
    handleSlot env st s true =
      ((st.setButton s 1).setWave s { st.waves s with start_ticks := env.ticks },
       [Event.buttonsAt s, Event.buttonsAt s, Event.wavesAt s,
        .sdl (.GetAudioStreamAvailable strm), .sdl (.ClearAudioStream strm), .sdl .GetTicks,
        .sdl (.PutAudioStreamData strm (st.waves s).buffer (st.waves s).buffer_len),
        .sdl (.FlushAudioStream strm)]) := by
  unfold handleSlot State.setButton State.setWave
  simp [h0, hs, ha]

theorem handleSlot_rising_stop (env : Answers) (st : State) (s : Fin MAX_WAVES) (strm : Nat)
    (h0 : st.buttons s = 0) (hs : (st.waves s).stream = some strm) (ha : env.available strm ≠ 0) :
    handleSlot env st s true =
      ((st.setButton s 1).setWave s { st.waves s with start_ticks := 0 },
       [Event.buttonsAt s, Event.buttonsAt s, Event.wavesAt s,
        .sdl (.GetAudioStreamAvailable strm), .sdl (.ClearAudioStream strm)]) := by
  unfold handleSlot State.setButton State.setWave
  simp [h0, hs, ha]

/-- C3: for a slot index `s >= 32` (an `int`, hence at most 2147483647),
`HandleButton(s, down)` returns the state as it was and does nothing else: no
counter and no record changes, no array is indexed and no SDL call is made. -/
theorem C3_HandleButton_out_of_range (env : Answers) (st : State) (s : Int) (down : Bool)
    (h32 : 32 ≤ s) (hint : s ≤ 2147483647) :
    HandleButton env st s down = (st, []) := by
  have hs : sizeT s = s.toNat := sizeT_of_nonneg s (by omega) (by omega)
  have hle : MAX_WAVES ≤ sizeT s := by
    rw [hs]
    show 32 ≤ s.toNat
    omega
  unfold HandleButton
  rw [dif_pos hle]

theorem C3_HandleButton_out_of_range_witness :
    HandleButton ⟨fun _ => 0, 5000⟩ demoState 32 true = (demoState, []) :=
  C3_HandleButton_out_of_range ⟨fun _ => 0, 5000⟩ demoState 32 true (by decide) (by decide)

/-- C2: on a rising edge (a press that takes the counter of an in-range slot
from 0 to 1) the playback trigger does one of three things.  Stream `NULL`:
no SDL call, the table of clips is unchanged.  Stream present and 0 bytes
available: the calls are GetAudioStreamAvailable, ClearAudioStream, GetTicks,
PutAudioStreamData with the clip's own buffer pointer and `buffer_len`, and
FlushAudioStream, and `start_ticks` becomes the tick value.  Stream present
and a non-zero byte count: the calls are GetAudioStreamAvailable and
ClearAudioStream, `start_ticks` becomes 0 and nothing is enqueued. -/
theorem C2_playback_trigger (env : Answers) (st : State) (s : Fin MAX_WAVES)
    (h0 : st.buttons s = 0) :
    (HandleButton env st s.val true).1.buttons s = 1
    ∧ ((st.waves s).stream = none →
        (HandleButton env st s.val true).1.waves = st.waves
        ∧ callsOf (HandleButton env st s.val true).2 = [])
    ∧ (∀ strm, (st.waves s).stream = some strm → env.available strm = 0 →
        (HandleButton env st s.val true).1.waves
          = Function.update st.waves s { st.waves s with start_ticks := env.ticks }
        ∧ callsOf (HandleButton env st s.val true).2
          = [.GetAudioStreamAvailable strm, .ClearAudioStream strm, .GetTicks,
             .PutAudioStreamData strm (st.waves s).buffer (st.waves s).buffer_len,
             .FlushAudioStream strm])
    ∧ (∀ strm, (st.waves s).stream = some strm → env.available strm ≠ 0 →
        (HandleButton env st s.val true).1.waves
          = Function.update st.waves s { st.waves s with start_ticks := 0 }
        ∧ callsOf (HandleButton env st s.val true).2
          = [.GetAudioStreamAvailable strm, .ClearAudioStream strm]) := by
  rw [HandleButton_in_range]
  refine ⟨?_, ?_, ?_, ?_⟩
  · unfold handleSlot
    cases hstr : (st.waves s).stream with
    | none => simp [h0, hstr]
    | some strm =>
      by_cases ha : env.available strm = 0
      · simp [h0, hstr, ha]
      · simp [h0, hstr, ha]
  · intro hn
    rw [handleSlot_rising_null env st s h0 hn]
    exact ⟨rfl, rfl⟩
  · intro strm hs ha
    rw [handleSlot_rising_start env st s strm h0 hs ha]
    exact ⟨rfl, rfl⟩
  · intro strm hs ha
    rw [handleSlot_rising_stop env st s strm h0 hs ha]
    exact ⟨rfl, rfl⟩

theorem C2_playback_trigger_witness :
    (callsOf (HandleButton ⟨fun _ => 0, 5000⟩ demoState (2 : Fin MAX_WAVES).val true).2
      = [.GetAudioStreamAvailable 7, .ClearAudioStream 7, .GetTicks,
         .PutAudioStreamData 7 (demoState.waves 2).buffer (demoState.waves 2).buffer_len,
         .FlushAudioStream 7])
    ∧ (callsOf (HandleButton ⟨fun _ => 16, 5000⟩ demoState (2 : Fin MAX_WAVES).val true).2
      = [.GetAudioStreamAvailable 7, .ClearAudioStream 7])
    ∧ (callsOf (HandleButton ⟨fun _ => 0, 5000⟩ demoState (5 : Fin MAX_WAVES).val true).2 = []) :=
  ⟨((C2_playback_trigger ⟨fun _ => 0, 5000⟩ demoState 2 rfl).2.2.1 7 rfl rfl).2,
   ((C2_playback_trigger ⟨fun _ => 16, 5000⟩ demoState 2 rfl).2.2.2 7 rfl (by decide)).2,
   ((C2_playback_trigger ⟨fun _ => 0, 5000⟩ demoState 5 rfl).2.1 rfl).2⟩

theorem delegated_not_rising (s : Fin MAX_WAVES) (down : Bool) :
    delegated s (Event.buttonsAt s :: (if down then [Event.buttonsAt s] else [])) = false := by
  cases down <;> simp [delegated, Event.isCall]

theorem handleSlot_rising_delegated (env : Answers) (st : State) (s : Fin MAX_WAVES)
    (h0 : st.buttons s = 0) :
    delegated s (handleSlot env st s true).2 = true
    ∧ (handleSlot env st s true).1.buttons = Function.update st.buttons s 1
    ∧ ∀ j, j ≠ s → (handleSlot env st s true).1.waves j = st.waves j := by
  cases hstr : (st.waves s).stream with
  | none =>
    rw [handleSlot_rising_null env st s h0 hstr]
    refine ⟨by simp [delegated], rfl, fun j _ => rfl⟩
  | some strm =>
    by_cases ha : env.available strm = 0
    · rw [handleSlot_rising_start env st s strm h0 hstr ha]
      refine ⟨by simp [delegated], rfl, fun j hj => ?_⟩
      simp [State.setWave, State.setButton, Function.update_noteq hj]
    · rw [handleSlot_rising_stop env st s strm h0 hstr ha]
      refine ⟨by simp [delegated], rfl, fun j hj => ?_⟩
      simp [State.setWave, State.setButton, Function.update_noteq hj]

theorem handleSlot_idle (env : Answers) (st : State) (s : Fin MAX_WAVES) (down : Bool)
    (h : ¬ (down = true ∧ st.buttons s = 0)) :
    delegated s (handleSlot env st s down).2 = false
    ∧ (handleSlot env st s down).1.waves = st.waves
    ∧ (handleSlot env st s down).1.buttons
        = Function.update st.buttons s (st.buttons s + (if down then 1 else -1)) := by
  rw [handleSlot_not_rising env st s down h]
  exact ⟨delegated_not_rising s down, rfl, rfl⟩

theorem pressSeq_overlap (st : State) (s : Fin MAX_WAVES) (h0 : st.buttons s = 0)
    (e1 e2 e3 e4 : Answers) :
    (pressSeq st s.val [(e1, true), (e2, true), (e3, false), (e4, false)]).2.map (delegated s)
      = [true, false, false, false]
    ∧ (pressSeq st s.val [(e1, true), (e2, true), (e3, false), (e4, false)]).1.waves
      = (HandleButton e1 st s.val true).1.waves
    ∧ (pressSeq st s.val [(e1, true), (e2, true), (e3, false), (e4, false)]).1.buttons s = 0 := by
  have h1 := handleSlot_rising_delegated e1 st s h0
  have b1 : (handleSlot e1 st s true).1.buttons s = 1 := by rw [h1.2.1]; simp
  have n2 : ¬ (true = true ∧ (handleSlot e1 st s true).1.buttons s = 0) := by
    rw [b1]; simp
  have h2 := handleSlot_idle e2 (handleSlot e1 st s true).1 s true n2
  have b2 : (handleSlot e2 (handleSlot e1 st s true).1 s true).1.buttons s = 2 := by
    rw [h2.2.2]; simp [b1]
  have h3 := handleSlot_idle e3 (handleSlot e2 (handleSlot e1 st s true).1 s true).1 s false
    (by simp)
  have b3 : (handleSlot e3 (handleSlot e2 (handleSlot e1 st s true).1 s true).1 s false).1.buttons s
      = 1 := by
    rw [h3.2.2]; simp [b2]
  have h4 := handleSlot_idle e4
    (handleSlot e3 (handleSlot e2 (handleSlot e1 st s true).1 s true).1 s false).1 s false (by simp)
  simp only [pressSeq, HandleButton_in_range, List.map_cons, List.map_nil]
  refine ⟨?_, ?_, ?_⟩
  · rw [h1.1, h2.1, h3.1, h4.1]
  · rw [h4.2.1, h3.2.1, h2.2.1]
  · rw [h4.2.2]; simp [b3]

/-- C1: for an in-range slot `s`, `HandleButton(s, down)` adds 1 to
`buttons[s]` when `down` is true and subtracts 1 when it is false, leaves the
other counters and the records of the other slots alone, and hands over to the
playback trigger (indexes `waves[s]` or makes an SDL call) exactly when `down`
is true and `buttons[s]` was 0, whether or not the slot has a stream; without
the hand-over the table of clips is unchanged.  Hence from `buttons[s] = 0`
the calls down, down, up, up hand over on the first call only, and the table
of clips after the four calls is the one the first call left. -/
theorem C1_HandleButton_counter_and_trigger (env : Answers) (st : State) (s : Fin MAX_WAVES)
    (down : Bool) :
    (HandleButton env st s.val down).1.buttons s = st.buttons s + (if down then 1 else -1)
    ∧ (∀ j, j ≠ s → (HandleButton env st s.val down).1.buttons j = st.buttons j)
    ∧ (∀ j, j ≠ s → (HandleButton env st s.val down).1.waves j = st.waves j)
    ∧ (delegated s (HandleButton env st s.val down).2 = true ↔ (down = true ∧ st.buttons s = 0))
    ∧ (delegated s (HandleButton env st s.val down).2 = false →
        (HandleButton env st s.val down).1.waves = st.waves)
    ∧ (st.buttons s = 0 → ∀ e1 e2 e3 e4 : Answers,
        (pressSeq st s.val [(e1, true), (e2, true), (e3, false), (e4, false)]).2.map (delegated s)
          = [true, false, false, false]
        ∧ (pressSeq st s.val [(e1, true), (e2, true), (e3, false), (e4, false)]).1.waves
          = (HandleButton e1 st s.val true).1.waves
        ∧ (pressSeq st s.val [(e1, true), (e2, true), (e3, false), (e4, false)]).1.buttons s = 0) := by
  by_cases hr : down = true ∧ st.buttons s = 0
  · obtain ⟨hd, h0⟩ := hr
    subst hd
    have hp := handleSlot_rising_delegated env st s h0
    rw [HandleButton_in_range]
    refine ⟨?_, ?_, hp.2.2, ?_, ?_, fun h e1 e2 e3 e4 => pressSeq_overlap st s h e1 e2 e3 e4⟩
    · rw [hp.2.1]; simp [h0]
    · intro j hj; rw [hp.2.1]; exact Function.update_noteq hj _ _
    · simp [hp.1, h0]
    · intro hf; rw [hp.1] at hf; exact absurd hf (by decide)
  · have hk := handleSlot_idle env st s down hr
    rw [HandleButton_in_range]
    refine ⟨?_, ?_, ?_, ?_, ?_, fun h e1 e2 e3 e4 => pressSeq_overlap st s h e1 e2 e3 e4⟩
    · rw [hk.2.2]; simp
    · intro j hj; rw [hk.2.2]; exact Function.update_noteq hj _ _
    · intro j _; rw [hk.2.1]
    · rw [hk.1]; simp; intro hd; exact fun h0 => hr ⟨hd, h0⟩
    · intro _; exact hk.2.1

theorem C1_HandleButton_counter_and_trigger_witness :
    (pressSeq demoState (2 : Fin MAX_WAVES).val
        [(⟨fun _ => 0, 5000⟩, true), (⟨fun _ => 16, 5001⟩, true),
         (⟨fun _ => 16, 5002⟩, false), (⟨fun _ => 16, 5003⟩, false)]).2.map (delegated 2)
      = [true, false, false, false] :=
  ((C1_HandleButton_counter_and_trigger ⟨fun _ => 0, 5000⟩ demoState 2 true).2.2.2.2.2 rfl
    ⟨fun _ => 0, 5000⟩ ⟨fun _ => 16, 5001⟩ ⟨fun _ => 16, 5002⟩ ⟨fun _ => 16, 5003⟩).1

/-- C7 (as stated, refuted): it is not the case that a rising-edge trigger on
a clip that was started and whose duration has run out (`now - start_ticks >=
total_ticks`) always starts playback.  With `start_ticks = 1000`,
`total_ticks = 1000`, `now = 5000` and 16 bytes still reported available,
`start_ticks` becomes 0 and nothing is enqueued. -/
theorem C7_counterexample :
    ¬ (∀ (env : Answers) (st : State) (s : Fin MAX_WAVES) (strm : Nat),
        (st.waves s).stream = some strm → st.buttons s = 0 →
        (st.waves s).start_ticks ≠ 0 →
        (st.waves s).total_ticks ≤ u64sub env.ticks (st.waves s).start_ticks →
        ((HandleButton env st s.val true).1.waves s).start_ticks = env.ticks
        ∧ Call.PutAudioStreamData strm (st.waves s).buffer (st.waves s).buffer_len
            ∈ callsOf (HandleButton env st s.val true).2) := by
  intro h
  have hc := h ⟨fun _ => 16, 5000⟩
    (demoState.setWave 2 { demoState.waves 2 with start_ticks := 1000, total_ticks := 1000 })
    2 7 rfl rfl (by decide) (by decide)
  rw [HandleButton_in_range,
    handleSlot_rising_stop _ _ 2 7 rfl rfl (by decide)] at hc
  have h1 := hc.1
  simp [State.setWave, State.setButton] at h1

/-- C7 (amended): the trigger never reads `start_ticks`, `total_ticks` or the
clock to decide; it looks at the byte count the stream reports.  On a rising
edge with 0 bytes available, whatever `start_ticks` was, `start_ticks` becomes
the tick value and the whole buffer (`buffer`, `buffer_len`) is enqueued, and
the outcome is the one for the same clip with `start_ticks = 0` (never
played). -/
theorem C7_trigger_on_drained_stream (env : Answers) (st : State) (s : Fin MAX_WAVES) (strm : Nat)
    (hs : (st.waves s).stream = some strm) (h0 : st.buttons s = 0)
    (ha : env.available strm = 0) :
    (HandleButton env st s.val true).1.waves
      = Function.update st.waves s { st.waves s with start_ticks := env.ticks }
    ∧ callsOf (HandleButton env st s.val true).2
      = [.GetAudioStreamAvailable strm, .ClearAudioStream strm, .GetTicks,
         .PutAudioStreamData strm (st.waves s).buffer (st.waves s).buffer_len,
         .FlushAudioStream strm]
    ∧ (HandleButton env (st.setWave s { st.waves s with start_ticks := 0 }) s.val true).1.waves
      = (HandleButton env st s.val true).1.waves
    ∧ (HandleButton env (st.setWave s { st.waves s with start_ticks := 0 }) s.val true).2
      = (HandleButton env st s.val true).2 := by
  have hs2 : ((st.setWave s { st.waves s with start_ticks := 0 }).waves s).stream = some strm := by
    simp [State.setWave, hs]
  have h02 : (st.setWave s { st.waves s with start_ticks := 0 }).buttons s = 0 := h0
  rw [HandleButton_in_range, HandleButton_in_range,
    handleSlot_rising_start env st s strm h0 hs ha,
    handleSlot_rising_start env _ s strm h02 hs2 ha]
  refine ⟨rfl, rfl, ?_, ?_⟩
  · simp [State.setWave, State.setButton]
  · simp [State.setWave]

theorem C7_trigger_on_drained_stream_witness :
    callsOf (HandleButton ⟨fun _ => 0, 5000⟩
        (demoState.setWave 2 { demoState.waves 2 with start_ticks := 1000, total_ticks := 1000 })
        (2 : Fin MAX_WAVES).val true).2
      = [.GetAudioStreamAvailable 7, .ClearAudioStream 7, .GetTicks,
         .PutAudioStreamData 7 (some [F32.fin 0, F32.fin 0, F32.fin 0, F32.fin 0]) 16,
         .FlushAudioStream 7] :=
  (C7_trigger_on_drained_stream ⟨fun _ => 0, 5000⟩
    (demoState.setWave 2 { demoState.waves 2 with start_ticks := 1000, total_ticks := 1000 })
    2 7 rfl rfl rfl).2.1

theorem playingStep_ok (now : Nat) (winw winh : Int) (ws : Fin MAX_WAVES → WaveData)
    (items : List FrameItem) (i : Fin MAX_WAVES)
    (hc : (ws i).start_ticks ≠ 0 → u64sub now (ws i).start_ticks < (ws i).total_ticks →
      ∃ draws, RenderWaveform (ws i) winw winh (u64sub now (ws i).start_ticks) = .ok draws) :
    playingStep now winw winh (ws, items) i
      = .ok (Function.update ws i (expire now (ws i)),
             items ++ (renderItem now winw winh ws i).toList) := by
  unfold playingStep expire renderItem
  by_cases h0 : (ws i).start_ticks = 0
  · simp [h0]
  · by_cases h1 : (ws i).total_ticks ≤ u64sub now (ws i).start_ticks
    · simp [h0, h1, not_lt.mpr h1]
    · obtain ⟨draws, hd⟩ := hc h0 (not_le.mp h1)
      simp [h0, h1, not_le.mp h1, hd]

theorem playingStep_fault (now : Nat) (winw winh : Int) (ws : Fin MAX_WAVES → WaveData)
    (items : List FrameItem) (i : Fin MAX_WAVES) (e : Fault)
    (h0 : (ws i).start_ticks ≠ 0) (h1 : u64sub now (ws i).start_ticks < (ws i).total_ticks)
    (hf : RenderWaveform (ws i) winw winh (u64sub now (ws i).start_ticks) = .error e) :
    playingStep now winw winh (ws, items) i = .error e := by
  unfold playingStep
  simp [h0, not_le.mpr h1, hf]

theorem playingPass_fold (now : Nat) (winw winh : Int) (l : List (Fin MAX_WAVES))
    (hl : l.Nodup) (ws : Fin MAX_WAVES → WaveData) (items : List FrameItem)
    (hc : ∀ i ∈ l, (ws i).start_ticks ≠ 0 → u64sub now (ws i).start_ticks < (ws i).total_ticks →
      ∃ draws, RenderWaveform (ws i) winw winh (u64sub now (ws i).start_ticks) = .ok draws) :
    l.foldlM (playingStep now winw winh) (ws, items)
      = .ok ((fun i => if i ∈ l then expire now (ws i) else ws i),
             items ++ l.filterMap (renderItem now winw winh ws)) := by
  induction l generalizing ws items with
  | nil => simp [pure, Except.pure]
  | cons i l ih =>
    have hi : i ∉ l := (List.nodup_cons.mp hl).1
    have hl2 : l.Nodup := (List.nodup_cons.mp hl).2
    have hsame : ∀ j ∈ l, Function.update ws i (expire now (ws i)) j = ws j := by
      intro j hj
      have hne : j ≠ i := fun h => hi (h ▸ hj)
      exact Function.update_noteq hne _ _
    have hc2 : ∀ j ∈ l, (Function.update ws i (expire now (ws i)) j).start_ticks ≠ 0 →
        u64sub now (Function.update ws i (expire now (ws i)) j).start_ticks
          < (Function.update ws i (expire now (ws i)) j).total_ticks →
        ∃ draws, RenderWaveform (Function.update ws i (expire now (ws i)) j) winw winh
          (u64sub now (Function.update ws i (expire now (ws i)) j).start_ticks) = .ok draws := by
      intro j hj
      rw [hsame j hj]
      exact hc j (List.mem_cons_of_mem _ hj)
    rw [List.foldlM_cons, playingStep_ok now winw winh ws items i (hc i (List.mem_cons_self _ _))]
    show l.foldlM (playingStep now winw winh)
        (Function.update ws i (expire now (ws i)), items ++ (renderItem now winw winh ws i).toList)
      = _
    rw [ih hl2 _ _ hc2]
    congr 2
    · funext j
      by_cases hj : j ∈ l
      · have hne : j ≠ i := fun h => hi (h ▸ hj)
        simp [hj, hsame j hj]
      · by_cases hji : j = i
        · subst hji
          simp [hj]
        · simp [hj, hji, Function.update_noteq hji]
    · have hfm : l.filterMap (renderItem now winw winh (Function.update ws i (expire now (ws i))))
          = l.filterMap (renderItem now winw winh ws) := by
        apply List.filterMap_congr
        intro j hj
        unfold renderItem
        rw [hsame j hj]
      rw [hfm, List.filterMap_cons]
      cases hr : renderItem now winw winh ws i <;> simp

theorem playingPass_ok (now : Nat) (winw winh : Int) (ws : Fin MAX_WAVES → WaveData)
    (hc : ∀ i, (ws i).start_ticks ≠ 0 → u64sub now (ws i).start_ticks < (ws i).total_ticks →
      ∃ draws, RenderWaveform (ws i) winw winh (u64sub now (ws i).start_ticks) = .ok draws) :
    playingPass now winw winh (List.finRange MAX_WAVES) ws
      = .ok ((fun i => expire now (ws i)),
             (List.finRange MAX_WAVES).filterMap (renderItem now winw winh ws)) := by
  unfold playingPass
  rw [playingPass_fold now winw winh _ (List.nodup_finRange _) ws [] (fun i _ => hc i)]
  simp

theorem playingPass_fault (now : Nat) (winw winh : Int) (l1 l2 : List (Fin MAX_WAVES))
    (i : Fin MAX_WAVES) (hl : (l1 ++ i :: l2).Nodup) (ws : Fin MAX_WAVES → WaveData) (e : Fault)
    (hc : ∀ j ∈ l1, (ws j).start_ticks ≠ 0 → u64sub now (ws j).start_ticks < (ws j).total_ticks →
      ∃ draws, RenderWaveform (ws j) winw winh (u64sub now (ws j).start_ticks) = .ok draws)
    (h0 : (ws i).start_ticks ≠ 0) (h1 : u64sub now (ws i).start_ticks < (ws i).total_ticks)
    (hf : RenderWaveform (ws i) winw winh (u64sub now (ws i).start_ticks) = .error e) :
    playingPass now winw winh (l1 ++ i :: l2) ws = .error e := by
  have hl1 : l1.Nodup := (List.nodup_append.mp hl).1
  have hi : i ∉ l1 := by
    intro hmem
    exact (List.nodup_append.mp hl).2.2 hmem (List.mem_cons_self _ _)
  unfold playingPass
  rw [List.foldlM_append, playingPass_fold now winw winh l1 hl1 ws [] hc]
  show (i :: l2).foldlM (playingStep now winw winh) _ = _
  rw [List.foldlM_cons]
  rw [playingStep_fault now winw winh _ _ i e (by rw [if_neg hi]; exact h0)
    (by rw [if_neg hi]; exact h1) (by rw [if_neg hi]; exact hf)]
  rfl

theorem colorLoop_fold (colors : List (Nat × Nat × Nat)) (ws : Fin MAX_WAVES → WaveData)
    (k : Nat) (hk : k ≤ colors.length) (i : Fin MAX_WAVES) :
    ((List.range k).foldl (colorStep colors) ws) i
      = if i.val < k then (ws i).paint (colors.getD i.val (0, 0, 0)) else ws i := by
  induction k with
  | zero => simp
  | succ k ih =>
    have ih2 := ih (Nat.le_of_succ_le hk)
    rw [List.range_succ, List.foldl_append, List.foldl_cons, List.foldl_nil]
    have hlt : k < colors.length := hk
    generalize (List.range k).foldl (colorStep colors) ws = acc at ih2 ⊢
    by_cases h32 : k < MAX_WAVES
    · have hget : colors.get? k = some (colors.getD k (0, 0, 0)) := by
        simp [List.getD, List.getElem?_eq_getElem hlt]
      have hstep : colorStep colors acc k
          = Function.update acc ⟨k, h32⟩ ((acc ⟨k, h32⟩).paint (colors.getD k (0, 0, 0))) := by
        unfold colorStep
        rw [dif_pos h32, hget]
        rfl
      rw [hstep]
      by_cases hik : i = ⟨k, h32⟩
      · subst hik
        simp only [Function.update_same]
        rw [ih2]
        simp
      · rw [Function.update_noteq hik, ih2]
        have hne : i.val ≠ k := fun h => hik (Fin.ext h)
        by_cases hlt2 : i.val < k
        · simp [hlt2, Nat.lt_succ_of_lt hlt2]
        · have : ¬ i.val < k + 1 := by omega
          simp [hlt2, this]
    · have hstep : colorStep colors acc k = acc := by
        unfold colorStep
        rw [dif_neg h32]
      rw [hstep, ih2]
      have h1 : i.val < k := by have := i.isLt; omega
      simp [h1, Nat.lt_succ_of_lt h1]

theorem colorLoop_apply (ws : Fin MAX_WAVES → WaveData) (i : Fin MAX_WAVES) :
    colorLoop button_colors ws i
      = if i.val < 10 then (ws i).paint (button_colors.getD i.val (0, 0, 0)) else ws i := by
  unfold colorLoop
  rw [colorLoop_fold button_colors ws button_colors.length (Nat.le_refl _) i]
  rfl

theorem button_colors_palette (i : Nat) (h : i < 10) :
    button_colors.getD i (0, 0, 0) = palette.getD (i % 5) (0, 0, 0) := by
  interval_cases i <;> rfl

theorem loadSlot_flag (o : SlotOutcome) (i : Nat) (w : WaveData) :
    (loadSlot o i w).2 = (loadSlot o i WaveData.zero).2 := by
  unfold loadSlot
  cases o.pathOk <;> simp
  cases o.wav with
  | none => simp
  | some file =>
    simp only []
    split_ifs <;> rfl

theorem loadSlot_not_loaded (o : SlotOutcome) (i : Nat) (w : WaveData)
    (h : (loadSlot o i w).2 = false) :
    (loadSlot o i w).1.stream = w.stream := by
  unfold loadSlot at h ⊢
  cases hp : o.pathOk
  · simp
  · simp only [hp, Bool.not_true, Bool.false_eq_true, if_false] at h ⊢
    cases hw : o.wav with
    | none => simp
    | some file =>
      simp only [hw] at h ⊢
      split_ifs at h ⊢ <;> first
        | rfl
        | (cases hc : o.converted <;> simp_all)

theorem loadSlot_keeps (o : SlotOutcome) (i : Nat) (w : WaveData) :
    (loadSlot o i w).1.start_ticks = w.start_ticks ∧ (loadSlot o i w).1.rgb = w.rgb := by
  unfold loadSlot WaveData.rgb
  cases hp : o.pathOk
  · simp
  · simp only [Bool.not_true, Bool.false_eq_true, if_false]
    cases hw : o.wav with
    | none => simp
    | some file =>
      simp only []
      cases hc : o.converted with
      | none => split_ifs <;> simp <;> split <;> simp
      | some d => split_ifs <;> simp <;> split <;> simp

theorem loadLoop_fold (slots : Fin MAX_WAVES → SlotOutcome) (l : List (Fin MAX_WAVES))
    (hl : l.Nodup) (ws : Fin MAX_WAVES → WaveData) (b : Bool) :
    loadLoop slots l (ws, b)
      = ((fun i => if i ∈ l then (loadSlot (slots i) i.val (ws i)).1 else ws i),
         b || l.any (fun i => (loadSlot (slots i) i.val WaveData.zero).2)) := by
  unfold loadLoop
  induction l generalizing ws b with
  | nil => simp
  | cons i l ih =>
    have hi : i ∉ l := (List.nodup_cons.mp hl).1
    have hl2 : l.Nodup := (List.nodup_cons.mp hl).2
    rw [List.foldl_cons, ih hl2]
    congr 1
    · funext j
      by_cases hj : j ∈ l
      · have hne : j ≠ i := fun h => hi (h ▸ hj)
        simp [hj, Function.update_noteq hne]
      · by_cases hji : j = i
        · subst hji
          simp [hj]
        · simp [hj, hji, Function.update_noteq hji]
    · rw [loadSlot_flag (slots i) i.val (ws i)]
      simp [Bool.or_assoc]

theorem SDL_AppInit_flags (o : InitOutcome) (st : State)
    (h : (SDL_AppInit o st).1 = .SDL_APP_CONTINUE) :
    o.initVideo = true ∧ o.initAudio = true ∧ o.initJoystick = true ∧ o.windowOk = true := by
  unfold SDL_AppInit at h
  cases h1 : o.initVideo <;> simp [h1] at h
  cases h2 : o.initAudio <;> simp [h2] at h
  cases h3 : o.initJoystick <;> simp [h3] at h
  cases h4 : o.windowOk <;> simp [h4] at h
  exact ⟨rfl, rfl, rfl, rfl⟩

theorem SDL_AppInit_continue (o : InitOutcome) (st : State)
    (h : (SDL_AppInit o st).1 = .SDL_APP_CONTINUE) :
    (SDL_AppInit o st).2.waves = loadedWaves o st.waves
    ∧ (SDL_AppInit o st).2.buttons = st.buttons
    ∧ (SDL_AppInit o st).2.failure_string = advisory o st.failure_string := by
  obtain ⟨h1, h2, h3, h4⟩ := SDL_AppInit_flags o st h
  refine ⟨?_, ?_, ?_⟩
  · simp only [SDL_AppInit, h1, h2, h3, h4, Bool.not_true, Bool.false_eq_true, if_false]
    rw [loadLoop_fold o.slots _ (List.nodup_finRange _) st.waves false]
    funext i
    rw [colorLoop_apply]
    simp [loadedWaves]
  · simp only [SDL_AppInit, h1, h2, h3, h4, Bool.not_true, Bool.false_eq_true, if_false]
  · simp only [SDL_AppInit, h1, h2, h3, h4, Bool.not_true, Bool.false_eq_true, if_false]
    rw [loadLoop_fold o.slots _ (List.nodup_finRange _) st.waves false]
    rfl

theorem handleSlot_null_stream (env : Answers) (st : State) (s : Fin MAX_WAVES) (down : Bool)
    (hn : (st.waves s).stream = none) :
    (handleSlot env st s down).1.waves = st.waves ∧ callsOf (handleSlot env st s down).2 = [] := by
  by_cases hr : down = true ∧ st.buttons s = 0
  · obtain ⟨hd, h0⟩ := hr
    subst hd
    rw [handleSlot_rising_null env st s h0 hn]
    exact ⟨rfl, rfl⟩
  · rw [handleSlot_not_rising env st s down hr]
    cases down <;> exact ⟨rfl, rfl⟩

theorem playingPass_inert (st : State) (h : Inert st) (winw winh : Int) (now : Nat) :
    playingPass now winw winh (List.finRange MAX_WAVES) st.waves
      = .ok (st.waves, []) := by
  rw [playingPass_ok now winw winh st.waves (fun i h0 => absurd (h i).2 h0)]
  congr 2
  · funext j
    simp [expire, (h j).2]
  · rw [List.filterMap_eq_nil_iff]
    intro j _
    simp [renderItem, (h j).2]

theorem step_inert (st : State) (h : Inert st) (i : Input) :
    ∃ st2, step st i = .ok (st2, []) ∧ st2.waves = st.waves := by
  cases i with
  | button env b down =>
    have hb : (HandleButton env st b down).1.waves = st.waves
        ∧ callsOf (HandleButton env st b down).2 = [] := by
      unfold HandleButton
      by_cases hb : MAX_WAVES ≤ sizeT b
      · rw [dif_pos hb]
        exact ⟨rfl, rfl⟩
      · rw [dif_neg hb]
        exact handleSlot_null_stream env st _ down (h _).1
    refine ⟨(HandleButton env st b down).1, ?_, hb.1⟩
    show Except.ok ((HandleButton env st b down).1, callsOf (HandleButton env st b down).2) = _
    rw [hb.2]
  | frame winw winh now =>
    refine ⟨{ st with waves := st.waves }, ?_, rfl⟩
    have hp := playingPass_inert st h winw winh now
    simp only [step, SDL_AppIterate, hp]

theorem run_inert (st : State) (h : Inert st) (inputs : List Input) :
    ∃ st2, run st inputs = .ok (st2, []) ∧ st2.waves = st.waves := by
  induction inputs generalizing st with
  | nil => exact ⟨st, rfl, rfl⟩
  | cons i rest ih =>
    obtain ⟨st1, hs, hw1⟩ := step_inert st h i
    have h1 : Inert st1 := by
      intro j
      rw [hw1]
      exact h j
    obtain ⟨st2, hr, hw2⟩ := ih st1 h1
    refine ⟨st2, ?_, by rw [hw2, hw1]⟩
    unfold run
    rw [hs]
    simp only []
    rw [hr]
    rfl

theorem loadedWaves_inert (o : InitOutcome)
    (hnone : ∀ i : Fin MAX_WAVES, (loadSlot (o.slots i) i.val WaveData.zero).2 = false)
    (i : Fin MAX_WAVES) :
    (loadedWaves o State.initial.waves i).stream = none
    ∧ (loadedWaves o State.initial.waves i).start_ticks = 0 := by
  have hs := loadSlot_not_loaded (o.slots i) i.val WaveData.zero (hnone i)
  have hk := (loadSlot_keeps (o.slots i) i.val WaveData.zero).1
  unfold loadedWaves
  show (if i.val < 10 then
      ((loadSlot (o.slots i) i.val WaveData.zero).1).paint (button_colors.getD i.val (0, 0, 0))
    else (loadSlot (o.slots i) i.val WaveData.zero).1).stream = none
    ∧ (if i.val < 10 then
      ((loadSlot (o.slots i) i.val WaveData.zero).1).paint (button_colors.getD i.val (0, 0, 0))
    else (loadSlot (o.slots i) i.val WaveData.zero).1).start_ticks = 0
  split_ifs
  · exact ⟨hs, hk⟩
  · exact ⟨hs, hk⟩

theorem advisory_none_loaded (o : InitOutcome)
    (hnone : ∀ i : Fin MAX_WAVES, (loadSlot (o.slots i) i.val WaveData.zero).2 = false) :
    advisory o none
      = some (if o.devid = 0 then "Couldn't open audio device: " ++ o.error
          else if (o.sticks.take 32).any Option.isSome then "Didn't load any wave files!"
          else "Didn't open any joystick devices!") := by
  have hany : (List.finRange MAX_WAVES).any
      (fun i => (loadSlot (o.slots i) i.val WaveData.zero).2) = false := by
    rw [List.any_eq_false]
    intro i _
    rw [hnone i]
    simp
  unfold advisory
  rw [hany]
  by_cases hd : o.devid = 0
  · cases hst : (o.sticks.take 32).any Option.isSome <;> simp [hd, setFailure]
  · cases hst : (o.sticks.take 32).any Option.isSome <;> simp [hd, setFailure]

/-- C6 (as stated, refuted): with the audio device open, no joystick opened
and no clip file present, `SDL_AppInit` goes through and the advisory is
"Didn't open any joystick devices!", not "Didn't load any wave files!". -/
theorem C6_counterexample :
    ¬ (∀ o : InitOutcome, (SDL_AppInit o State.initial).1 = .SDL_APP_CONTINUE →
        (∀ i : Fin MAX_WAVES, (o.slots i).wav = none) →
        (SDL_AppInit o State.initial).2.failure_string = some "Didn't load any wave files!") := by
  intro h
  have hc := h { noClips with sticks := [] } rfl (fun _ => rfl)
  rw [(SDL_AppInit_continue { noClips with sticks := [] } State.initial rfl).2.2] at hc
  have ha := advisory_none_loaded { noClips with sticks := [] } (fun _ => rfl)
  rw [show State.initial.failure_string = none from rfl, ha] at hc
  revert hc
  decide

/-- C6 (amended): when `SDL_AppInit` goes through and no slot is loaded (for
each index the path is not built, `SDL_LoadWAV` fails, the conversion fails or
the stream is not bound), the advisory is the first complaint raised: the
audio device message if the device did not open, else "Didn't open any
joystick devices!" if no joystick opened, else "Didn't load any wave files!".
The frame renderer shows that string, every slot has a `NULL` stream and
`start_ticks = 0`, and every later run of button events and frames goes
through without a fault, makes no SDL audio call and leaves the table of
clips as it is. -/
theorem C6_advisory_and_inert_slots (o : InitOutcome)
    (hcont : (SDL_AppInit o State.initial).1 = .SDL_APP_CONTINUE)
    (hnone : ∀ i : Fin MAX_WAVES, (loadSlot (o.slots i) i.val WaveData.zero).2 = false) :
    (SDL_AppInit o State.initial).2.failure_string
      = some (if o.devid = 0 then "Couldn't open audio device: " ++ o.error
          else if (o.sticks.take 32).any Option.isSome then "Didn't load any wave files!"
          else "Didn't open any joystick devices!")
    ∧ (∀ winw winh : Int, ∃ x y,
        failurePass (SDL_AppInit o State.initial).2 winw winh
          = [FrameItem.draw (.SetRenderDrawColor 255 255 255 255),
             FrameItem.draw (.RenderDebugText x y
               (if o.devid = 0 then "Couldn't open audio device: " ++ o.error
                else if (o.sticks.take 32).any Option.isSome then "Didn't load any wave files!"
                else "Didn't open any joystick devices!"))])
    ∧ Inert (SDL_AppInit o State.initial).2
    ∧ (∀ inputs : List Input, ∃ st2,
        run (SDL_AppInit o State.initial).2 inputs = .ok (st2, [])
        ∧ st2.waves = (SDL_AppInit o State.initial).2.waves
        ∧ Inert st2) := by
  have hc := SDL_AppInit_continue o State.initial hcont
  have hfs : (SDL_AppInit o State.initial).2.failure_string
      = some (if o.devid = 0 then "Couldn't open audio device: " ++ o.error
          else if (o.sticks.take 32).any Option.isSome then "Didn't load any wave files!"
          else "Didn't open any joystick devices!") := by
    rw [hc.2.2]
    exact advisory_none_loaded o hnone
  have hin : Inert (SDL_AppInit o State.initial).2 := by
    intro i
    rw [hc.1]
    exact loadedWaves_inert o hnone i
  refine ⟨hfs, ?_, hin, ?_⟩
  · intro winw winh
    unfold failurePass
    rw [hfs]
    exact ⟨_, _, rfl⟩
  · intro inputs
    obtain ⟨st2, hr, hw⟩ := run_inert _ hin inputs
    refine ⟨st2, hr, hw, ?_⟩
    intro i
    rw [hw]
    exact hin i

theorem C6_advisory_and_inert_slots_witness :
    (SDL_AppInit noClips State.initial).2.failure_string = some "Didn't load any wave files!" :=
  (C6_advisory_and_inert_slots noClips rfl (fun _ => rfl)).1

/-- C10 (as stated, refuted): after a start-up that goes through, slot 10 has
the colour (0, 0, 0) it was zero-initialised with, not the palette entry at
position 10 mod 5 (white). -/
theorem C10_counterexample :
    ¬ (∀ (o : InitOutcome) (i : Fin MAX_WAVES),
        (SDL_AppInit o State.initial).1 = .SDL_APP_CONTINUE →
        ((SDL_AppInit o State.initial).2.waves i).rgb = palette.getD (i.val % 5) (0, 0, 0)) := by
  intro h
  have hc := h noClips 10 rfl
  rw [(SDL_AppInit_continue noClips State.initial rfl).1] at hc
  revert hc
  decide

/-- C10 (amended): after a `SDL_AppInit` that returns `SDL_APP_CONTINUE`, from
any state, every slot `i` in 0..9 (the ten entries of `button_colors`) has the
colour of the palette white, red, green, blue, yellow at position `i mod 5`. -/
theorem C10_palette_first_ten (o : InitOutcome) (st : State) (i : Fin MAX_WAVES)
    (hcont : (SDL_AppInit o st).1 = .SDL_APP_CONTINUE) (hi : i.val < 10) :
    ((SDL_AppInit o st).2.waves i).rgb = palette.getD (i.val % 5) (0, 0, 0) := by
  rw [(SDL_AppInit_continue o st hcont).1]
  unfold loadedWaves
  rw [if_pos hi, ← button_colors_palette i.val hi]
  rfl

theorem C10_palette_first_ten_witness :
    ((SDL_AppInit noClips State.initial).2.waves 7).rgb = (0, 255, 0) :=
  C10_palette_first_ten noClips State.initial 7 rfl (by decide)

namespace F32

theorem dropBits_le (fuel q k : Nat) (h : q / 2 ^ k < 2 ^ 24) : dropBits fuel q ≤ k := by
  induction fuel generalizing q k with
  | zero => simp [dropBits]
  | succ fuel ih =>
    unfold dropBits
    split_ifs with hq
    · exact Nat.zero_le _
    · cases k with
      | zero => simp at h; exact absurd h hq
      | succ k =>
        have h2 : q / 2 / 2 ^ k < 2 ^ 24 := by
          rw [Nat.div_div_eq_div_mul, ← pow_succ']
          exact h
        exact Nat.succ_le_succ (ih (q / 2) k h2)

theorem roundHalfEven_mul (q d : Nat) (hd : 0 < d) : roundHalfEven (q * d) d = q := by
  unfold roundHalfEven
  simp [Nat.mul_div_cancel _ hd, hd]

theorem roundMag_exact (q d k : Nat) (hd : 0 < d) (hk : 2 ^ k ∣ q) (hq : q / 2 ^ k < 2 ^ 24) :
    roundMag (q * d) d = q := by
  unfold roundMag
  rw [Nat.mul_div_cancel _ hd]
  have hs : dropBits q q ≤ k := dropBits_le q q k hq
  have hdvd : 2 ^ dropBits q q ∣ q := Dvd.dvd.trans (pow_dvd_pow 2 hs) hk
  obtain ⟨c, hc⟩ := hdvd
  have hpos : 0 < d * 2 ^ dropBits q q := Nat.mul_pos hd (by positivity)
  have hn : q * d = c * (d * 2 ^ dropBits q q) := by
    conv_lhs => rw [hc]
    ring
  simp only []
  rw [hn, roundHalfEven_mul c _ hpos]
  conv_rhs => rw [hc]
  ring

theorem round_exact (v : Int) (d k : Nat) (hd : 0 < d) (hk : 2 ^ k ∣ v.natAbs)
    (hq : v.natAbs / 2 ^ k < 2 ^ 24) (hmax : v.natAbs ≤ maxFin) :
    round (v * d) d = fin v := by
  unfold round
  have habs : (v * (d : Int)).natAbs = v.natAbs * d := by
    rw [Int.natAbs_mul]; simp
  simp only []
  rw [habs, roundMag_exact v.natAbs d k hd hk hq, if_neg (Nat.not_lt.mpr hmax)]
  congr 1
  have hdpos : (0 : Int) < (d : Int) := by exact_mod_cast hd
  by_cases hv : v < 0
  · have : v * (d : Int) < 0 := Int.mul_neg_of_neg_of_pos hv hdpos
    rw [if_pos this]
    omega
  · have : ¬ v * (d : Int) < 0 := by
      have : 0 ≤ v * (d : Int) := Int.mul_nonneg (by omega) (by omega)
      omega
    rw [if_neg this]
    omega

theorem ofInt_exact (x : Int) (hx : x.natAbs < 2 ^ 24) : ofInt x = fin (x * 2 ^ 149) := by
  have habs : (x * 2 ^ 149).natAbs = x.natAbs * 2 ^ 149 := by
    rw [Int.natAbs_mul, Int.natAbs_pow]; rfl
  have h := round_exact (x * 2 ^ 149) 1 149 (by decide) (by rw [habs]; exact Dvd.intro_left _ rfl)
    (by rw [habs, Nat.mul_div_cancel _ (by positivity)]; exact hx)
    (by
      rw [habs]
      unfold maxFin
      have h1 : x.natAbs ≤ 2 ^ 24 - 1 := by omega
      exact Nat.mul_le_mul h1 (Nat.pow_le_pow_right (by decide) (by decide)))
  unfold ofInt unit
  rw [← h]
  congr 1
  push_cast
  ring

theorem mul_half_exact (x : Int) (hx : x.natAbs < 2 ^ 24) (s : Int) (hs : s = 1 ∨ s = -1) :
    mul (fin (x * 2 ^ 149)) (fin (s * 2 ^ 148)) = fin (s * x * 2 ^ 148) := by
  have habs : (s * x * 2 ^ 148).natAbs = x.natAbs * 2 ^ 148 := by
    rw [Int.natAbs_mul, Int.natAbs_mul, Int.natAbs_pow]
    rcases hs with h | h <;> subst h <;> simp
  have h := round_exact (s * x * 2 ^ 148) unit 148 (by unfold unit; positivity)
    (by rw [habs]; exact Dvd.intro_left _ rfl)
    (by rw [habs, Nat.mul_div_cancel _ (by positivity)]; exact hx)
    (by
      rw [habs]
      unfold maxFin
      have h1 : x.natAbs ≤ 2 ^ 24 - 1 := by omega
      exact Nat.mul_le_mul h1 (Nat.pow_le_pow_right (by decide) (by decide)))
  show round (x * 2 ^ 149 * (s * 2 ^ 148)) unit = fin (s * x * 2 ^ 148)
  rw [← h]
  congr 1
  unfold unit
  push_cast
  ring

theorem add_exact (a b x : Int) (k : Nat) (hx : x.natAbs < 2 ^ 24) (hk : k ≤ 253)
    (h : a + b = x * 2 ^ k) : add (fin a) (fin b) = fin (x * 2 ^ k) := by
  have habs : (x * 2 ^ k).natAbs = x.natAbs * 2 ^ k := by
    rw [Int.natAbs_mul, Int.natAbs_pow]; rfl
  have hr := round_exact (x * 2 ^ k) 1 k (by decide) (by rw [habs]; exact Dvd.intro_left _ rfl)
    (by rw [habs, Nat.mul_div_cancel _ (by positivity)]; exact hx)
    (by
      rw [habs]
      unfold maxFin
      have h1 : x.natAbs ≤ 2 ^ 24 - 1 := by omega
      exact Nat.mul_le_mul h1 (Nat.pow_le_pow_right (by decide) hk))
  show round (a + b) 1 = fin (x * 2 ^ k)
  rw [h, ← hr]
  congr 1
  push_cast
  ring

end F32

set_option maxRecDepth 8000 in
theorem average_one : average F32.one F32.one = F32.one := by decide

set_option maxRecDepth 8000 in
theorem average_negOne : average F32.negOne F32.negOne = F32.negOne := by decide

set_option maxRecDepth 8000 in
theorem average_zero : average (F32.fin 0) (F32.fin 0) = F32.fin 0 := by decide

set_option maxRecDepth 8000 in
theorem mul_zero_half : F32.mul (F32.fin 0) F32.half = F32.fin 0 := by decide

theorem yOf_one (h : Int) (hh : h.natAbs < 2 ^ 24) : yOf h F32.one = F32.fin 0 := by
  unfold yOf F32.one F32.half
  rw [F32.ofInt_exact h hh]
  have h1 := F32.mul_half_exact 1 (by decide) 1 (Or.inl rfl)
  have h2 := F32.mul_half_exact h hh 1 (Or.inl rfl)
  simp only [one_mul] at h1 h2
  rw [h1, h2]
  unfold F32.sub F32.neg
  have := F32.add_exact (h * 2 ^ 148) (-(h * 2 ^ 148)) 0 0 (by decide) (by decide) (by ring)
  rw [this]
  congr 1

theorem yOf_negOne (h : Int) (hh : h.natAbs < 2 ^ 24) : yOf h F32.negOne = F32.fin (h * 2 ^ 149) := by
  unfold yOf F32.negOne F32.half
  rw [F32.ofInt_exact h hh]
  have h1 := F32.mul_half_exact (-1) (by decide) 1 (Or.inl rfl)
  have h2 := F32.mul_half_exact h hh 1 (Or.inl rfl)
  have h3 := F32.mul_half_exact h hh (-1) (Or.inr rfl)
  simp only [one_mul] at h1 h2
  have e1 : (-(2 : Int) ^ 149) = -1 * 2 ^ 149 := by ring
  rw [e1, h1, h2]
  rw [h3]
  unfold F32.sub F32.neg
  exact F32.add_exact (h * 2 ^ 148) (-(-1 * h * 2 ^ 148)) h 149 hh (by decide) (by ring)

theorem yOf_zero (h : Int) (hh : h.natAbs < 2 ^ 24) : yOf h (F32.fin 0) = F32.fin (h * 2 ^ 148) := by
  unfold yOf
  rw [mul_zero_half, F32.ofInt_exact h hh]
  unfold F32.half
  have h2 := F32.mul_half_exact h hh 1 (Or.inl rfl)
  simp only [one_mul] at h2
  rw [h2]
  have h0 : F32.mul (F32.fin (h * 2 ^ 149)) (F32.fin 0) = F32.fin 0 := by
    show F32.round (h * 2 ^ 149 * 0) F32.unit = F32.fin 0
    rw [mul_zero]
    decide
  rw [h0]
  unfold F32.sub F32.neg
  exact F32.add_exact (h * 2 ^ 148) (-0) h 148 hh (by decide) (by ring)

theorem exactTicks_frames (N : Nat) : exactTicks (8 * (N : Int)) = ((N : Int) * 1000) / 44100 := by
  unfold exactTicks
  have h1 : (8 * (N : Int)) / 4 / 2 = (N : Int) := by omega
  rw [h1]
  have h2 : ((N : Int) : ℚ) / 44100 * 1000 = (((N : Int) * 1000 : Int) : ℚ) / ((44100 : Nat) : ℚ) := by
    push_cast
    ring
  rw [h2, Rat.floor_intCast_div_natCast]
  rfl

theorem totalTicks_frames (N : Nat) (hN : 8 * N ≤ 2147483647) (r : Nat) (hr : r < 8) :
    totalTicks (8 * (N : Int) + r)
      = (F32.mul (F32.div (F32.ofInt N) (F32.ofInt 44100)) (F32.ofInt 1000)).toInt.toNat := by
  unfold totalTicks
  have h0 : sizeT (8 * (N : Int) + r) = 8 * N + r := by
    rw [sizeT_of_nonneg _ (by omega) (by omega)]
    omega
  have h1 : (8 * N + r) / 4 / 2 = N := by omega
  rw [h0, h1]

theorem F32.unit_cast : ((F32.unit : Nat) : Int) = 2 ^ 149 := by
  unfold F32.unit
  norm_cast

theorem F32.round_scaled (x : Int) (k d : Nat) (hx : x.natAbs < 2 ^ 24) (hk : k ≤ 253)
    (hd : 0 < d) : F32.round (x * 2 ^ k * d) d = F32.fin (x * 2 ^ k) := by
  have habs : (x * 2 ^ k).natAbs = x.natAbs * 2 ^ k := by
    rw [Int.natAbs_mul, Int.natAbs_pow]; rfl
  exact F32.round_exact (x * 2 ^ k) d k hd (by rw [habs]; exact Dvd.intro_left _ rfl)
    (by rw [habs, Nat.mul_div_cancel _ (by positivity)]; exact hx)
    (by
      rw [habs]
      unfold F32.maxFin
      have h1 : x.natAbs ≤ 2 ^ 24 - 1 := by omega
      exact Nat.mul_le_mul h1 (Nat.pow_le_pow_right (by decide) hk))

theorem F32.div_exact (a b x : Int) (k : Nat) (hx : x.natAbs < 2 ^ 24) (hk : k ≤ 253)
    (hb : 0 < b) (h : a * 2 ^ 149 = x * 2 ^ k * b) :
    F32.div (F32.fin a) (F32.fin b) = F32.fin (x * 2 ^ k) := by
  unfold F32.div
  have hne : b ≠ 0 := by omega
  have hs : b.sign = 1 := Int.sign_eq_one_of_pos hb
  have hn : ((b.natAbs : Nat) : Int) = b := Int.natAbs_of_nonneg (le_of_lt hb)
  simp only []
  rw [if_neg hne, hs, ← F32.round_scaled x k b.natAbs hx hk (by omega), hn, ← h,
    F32.unit_cast, mul_one]

theorem F32.mul_exact (a b x : Int) (k : Nat) (hx : x.natAbs < 2 ^ 24) (hk : k ≤ 253)
    (h : a * b = x * 2 ^ k * 2 ^ 149) :
    F32.mul (F32.fin a) (F32.fin b) = F32.fin (x * 2 ^ k) := by
  unfold F32.mul
  simp only []
  rw [← F32.round_scaled x k F32.unit hx hk (by unfold F32.unit; positivity), h,
    F32.unit_cast]

theorem F32.toInt_exact (x : Int) : (F32.fin (x * 2 ^ 149)).toInt = x := by
  unfold F32.toInt
  simp only []
  rw [F32.unit_cast, Int.tdiv_eq_ediv_of_dvd (Dvd.intro_left _ rfl)]
  exact Int.mul_ediv_cancel _ (by positivity)

theorem totalTicks_whole_seconds (k : Nat) (hk : k ≤ 380) :
    (F32.mul (F32.div (F32.ofInt ((44100 * k : Nat) : Int)) (F32.ofInt 44100)) (F32.ofInt 1000)).toInt
      = 1000 * k := by
  have e1 : F32.ofInt ((44100 * k : Nat) : Int) = F32.fin (((44100 * k : Nat) : Int) * 2 ^ 149) :=
    F32.ofInt_exact _ (by simp; omega)
  have e2 : F32.ofInt 44100 = F32.fin (44100 * 2 ^ 149) := F32.ofInt_exact _ (by decide)
  have e3 : F32.ofInt 1000 = F32.fin (1000 * 2 ^ 149) := F32.ofInt_exact _ (by decide)
  rw [e1, e2, e3]
  rw [F32.div_exact _ _ (k : Int) 149 (by simp; omega) (by decide) (by positivity)
    (by push_cast; ring)]
  rw [F32.mul_exact _ _ (1000 * k : Int) 149 (by omega) (by decide) (by ring)]
  exact F32.toInt_exact _

set_option maxRecDepth 8000 in
/-- C5 (as stated, refuted): the stored duration is not the truncation of
`N / 44100 * 1000` computed exactly.  For N = 354123 frames (8.03 s) the exact
value is 8030 and the code stores 8029: the `float` nearest to 8.03 is
8.02999973297119140625, its product with 1000 is 8029.99973297119140625, and
the `float` nearest to that is 8029.99951171875. -/
theorem C5_counterexample :
    ¬ (∀ N : Nat, 8 * N ≤ 2147483647 →
        (totalTicks (8 * (N : Int)) : Int) = exactTicks (8 * (N : Int))) := by
  intro h
  have hc := h 354123 (by decide)
  rw [exactTicks_frames] at hc
  have ht : totalTicks (8 * ((354123 : Nat) : Int)) = 8029 := by decide
  rw [ht] at hc
  revert hc
  decide

/-- C5 (amended): for a clip of N stereo float frames (`buffer_len` is 8*N
plus at most 7 stray bytes, within `int`), the stored duration is the
truncation of the single-precision evaluation: N converted to `float`,
divided by `44100.0f`, multiplied by `1000.0f`, each step rounded to the
nearest binary32 number.  For a clip of k whole seconds, k <= 380, it is
exactly 1000*k; in particular 44100 frames give 1000. -/
theorem C5_total_ticks_single_precision (N : Nat) (hN : 8 * N ≤ 2147483647) :
    (∀ r : Nat, r < 8 →
      totalTicks (8 * (N : Int) + r)
        = (F32.mul (F32.div (F32.ofInt N) (F32.ofInt 44100)) (F32.ofInt 1000)).toInt.toNat)
    ∧ (∀ k : Nat, k ≤ 380 → N = 44100 * k → totalTicks (8 * (N : Int)) = 1000 * k) := by
  refine ⟨fun r hr => totalTicks_frames N hN r hr, ?_⟩
  intro k hk hNk
  have h0 : totalTicks (8 * (N : Int))
      = (F32.mul (F32.div (F32.ofInt N) (F32.ofInt 44100)) (F32.ofInt 1000)).toInt.toNat := by
    have h := totalTicks_frames N hN 0 (by decide)
    rw [show (8 * (N : Int) + ((0 : Nat) : Int)) = 8 * (N : Int) from by simp] at h
    exact h
  rw [h0, hNk, totalTicks_whole_seconds k hk]
  omega

theorem C5_total_ticks_single_precision_witness :
    totalTicks (8 * ((44100 : Nat) : Int)) = 1000 * 1 :=
  (C5_total_ticks_single_precision 44100 (by decide)).2 1 (by decide) rfl

theorem readSample_ok (buf : List F32) (idx : Int) (h0 : 0 ≤ idx) (h1 : idx < buf.length) :
    readSample buf idx = .ok (buf.getD idx.toNat (F32.fin 0)) := by
  unfold readSample
  have hlt : idx.toNat < buf.length := by omega
  rw [if_neg (by omega)]
  simp [List.getD, List.getElem?_eq_getElem hlt]

theorem writePoint_append (pre rest : List SDL_FPoint) (r p : SDL_FPoint) :
    writePoint (pre ++ r :: rest) (pre.length : Int) p = .ok (pre ++ p :: rest) := by
  unfold writePoint
  rw [if_neg (by omega)]
  simp

theorem waveLoop_ok (buf : List F32) (base skip w h : Int) (hbase : 0 ≤ base) (hskip : 0 ≤ skip) :
    ∀ (n i : Nat) (px : F32) (pre rest : List SDL_FPoint),
      rest.length = n → (pre.length : Int) + n ≤ w + 2 →
      (∀ j : Nat, j < n → base + (((i + j : Nat) : Int) * skip) * 2 + 1 < buf.length) →
      waveLoop buf base skip w h n (i : Int) { prevx := px, pointidx := pre.length, points := pre ++ rest }
        = .ok { prevx := xFrom px n, pointidx := (pre.length : Int) + n,
                points := pre ++ (List.range n).map
                  (fun j => pointAt buf base skip h (i + j) (xFrom px (j + 1))) } := by
  intro n
  induction n with
  | zero =>
    intro i px pre rest hlen _ _
    have : rest = [] := List.length_eq_zero.mp hlen
    subst this
    simp [waveLoop, xFrom]
  | succ n ih =>
    intro i px pre rest hlen hroom hin
    obtain ⟨r, rest', rfl⟩ : ∃ r rest', rest = r :: rest' := by
      cases rest with
      | nil => simp at hlen
      | cons r rest' => exact ⟨r, rest', rfl⟩
    have hlen' : rest'.length = n := by simpa using hlen
    have hin0 := hin 0 (Nat.succ_pos n)
    simp only [Nat.add_zero] at hin0
    have hnn : 0 ≤ ((i : Nat) : Int) * skip := Int.mul_nonneg (Int.ofNat_nonneg _) hskip
    have hr0 := readSample_ok buf (base + ((i : Int) * skip) * 2) (by omega) (by omega)
    have hr1 := readSample_ok buf (base + ((i : Int) * skip) * 2 + 1) (by omega) (by omega)
    have hassert : (pre.length : Int) < w + 2 := by push_cast at hroom; omega
    have hih := ih (i + 1) (F32.add px (F32.ofInt 2))
      (pre ++ [pointAt buf base skip h i (F32.add px (F32.ofInt 2))]) rest' hlen'
      (by simp; push_cast at hroom; omega)
      (by
        intro j hj
        have := hin (j + 1) (Nat.succ_lt_succ hj)
        have e : i + 1 + j = i + (j + 1) := by omega
        rw [e]
        exact this)
    unfold waveLoop
    simp only [bind, Except.bind, hr0, hr1, if_pos hassert, writePoint_append]
    have e1 : ((i : Nat) : Int) + 1 = ((i + 1 : Nat) : Int) := by push_cast; rfl
    have e2 : (pre.length : Int) + 1
        = ((pre ++ [pointAt buf base skip h i (F32.add px (F32.ofInt 2))]).length : Int) := by
      simp
    have e3 : pre ++ pointAt buf base skip h i (F32.add px (F32.ofInt 2)) :: rest'
        = (pre ++ [pointAt buf base skip h i (F32.add px (F32.ofInt 2))]) ++ rest' := by
      simp
    have hpt : ({ x := F32.add px (F32.ofInt 2),
                  y := yOf h (average (buf.getD (base + ((i : Int) * skip) * 2).toNat (F32.fin 0))
                    (buf.getD (base + ((i : Int) * skip) * 2 + 1).toNat (F32.fin 0))) } : SDL_FPoint)
        = pointAt buf base skip h i (F32.add px (F32.ofInt 2)) := rfl
    have hx : ∀ k, xFrom (F32.add px (F32.ofInt 2)) k = xFrom px (k + 1) := by
      intro k
      unfold xFrom
      rw [Function.iterate_succ_apply]
    have hmap : (List.range (n + 1)).map (fun j => pointAt buf base skip h (i + j) (xFrom px (j + 1)))
        = pointAt buf base skip h i (F32.add px (F32.ofInt 2))
          :: (List.range n).map
            (fun j => pointAt buf base skip h (i + 1 + j) (xFrom (F32.add px (F32.ofInt 2)) (j + 1))) := by
      rw [List.range_succ_eq_map, List.map_cons, List.map_map]
      congr 1
      apply List.map_congr_left
      intro j _
      simp only [Function.comp, hx]
      have e : i + 1 + j = i + (j + 1) := by omega
      rw [e]
    rw [hpt, e1, e2, e3, hih, hmap, hx]
    congr 1
    congr 1
    · simp; ring
    · simp

theorem window_arith (off : Int) (h0 : 0 < off) (h1 : off < 2 ^ 60) :
    toInt32 ((min (sizeT (off * (4 * 2))) (4096 * 4 * 2) : Nat) : Int) = min (off * 8) 32768
    ∧ toInt32 ((sizeT (min (off * 8) 32768) / 4 / 2 : Nat) : Int) = min off 4096 := by
  have h1' : off < 1152921504606846976 := by
    have e : (2 : Int) ^ 60 = 1152921504606846976 := by norm_num
    rw [e] at h1
    exact h1
  have e64 : (2 : Int) ^ 64 = 18446744073709551616 := by norm_num
  have hs : sizeT (off * (4 * 2)) = (off * 8).toNat := by
    rw [sizeT_of_nonneg _ (by omega) (by rw [e64]; omega)]
    congr 1
  have hs2 : sizeT (min (off * 8) 32768) = (min (off * 8) 32768).toNat := by
    rw [sizeT_of_nonneg _ (by omega) (by rw [e64]; omega)]
  rw [hs, hs2]
  unfold toInt32
  norm_num
  constructor <;> omega

theorem renderLoop_ready (buf : List F32) (w h off : Int) (hw : 0 < w) (h0 : 0 < off)
    (hin : 2 * (off + w * (min off 4096 / (2 * w))) + 1 < buf.length) :
    waveLoop buf (2 * off) (min off 4096 / (2 * w)) w h (w + 1).toNat 0
        { prevx := F32.fin 0, pointidx := 1,
          points := { x := F32.fin 0, y := F32.mul (F32.ofInt h) F32.half }
            :: List.replicate (w + 1).toNat { x := F32.fin 0, y := F32.fin 0 } }
      = .ok { prevx := xFrom (F32.fin 0) (w + 1).toNat, pointidx := w + 2,
              points := refPoints buf w h off } := by
  have hskip0 : 0 ≤ min off 4096 / (2 * w) := Int.ediv_nonneg (by omega) (by omega)
  have hloop := waveLoop_ok buf (2 * off) (min off 4096 / (2 * w)) w h (by omega) hskip0
    (w + 1).toNat 0 (F32.fin 0) [{ x := F32.fin 0, y := F32.mul (F32.ofInt h) F32.half }]
    (List.replicate (w + 1).toNat { x := F32.fin 0, y := F32.fin 0 })
    (by simp) (by simp; omega)
    (by
      intro j hj
      have hjw : (j : Int) ≤ w := by omega
      have hmul : (j : Int) * (min off 4096 / (2 * w)) ≤ w * (min off 4096 / (2 * w)) :=
        Int.mul_le_mul_of_nonneg_right hjw hskip0
      simp only [Nat.zero_add]
      omega)
  have e0 : ((0 : Nat) : Int) = 0 := rfl
  have e1 : (([{ x := F32.fin 0, y := F32.mul (F32.ofInt h) F32.half }] : List SDL_FPoint).length : Int)
      = 1 := rfl
  rw [e0, e1] at hloop
  simp only [List.singleton_append] at hloop
  rw [hloop]
  congr 1
  congr 1
  · omega
  · unfold refPoints
    simp only []
    congr 1
    apply List.map_congr_left
    intro j _
    unfold pointAt refPoint
    have e : 2 * off + ((0 + j : Nat) : Int) * (min off 4096 / (2 * w)) * 2
        = 2 * (off + (j : Int) * (min off 4096 / (2 * w))) := by
      rw [Nat.zero_add]
      ring
    rw [e]

theorem RenderWaveform_ok (wav : WaveData) (buf : List F32) (w h : Int) (elapsed : Nat)
    (hb : wav.buffer = some buf) (hw : 0 < w)
    (h0 : 0 < frameOffset wav.total_ticks elapsed)
    (h1 : frameOffset wav.total_ticks elapsed < 2 ^ 60)
    (hin : 2 * (frameOffset wav.total_ticks elapsed
              + w * (min (frameOffset wav.total_ticks elapsed) 4096 / (2 * w))) + 1 < buf.length) :
    RenderWaveform wav w h elapsed
      = .ok [Draw.SetRenderDrawColor wav.r wav.g wav.b 255,
             Draw.RenderLines (refPoints buf w h (frameOffset wav.total_ticks elapsed))] := by
  have hloop := renderLoop_ready buf w h _ hw h0 hin
  have hlen : (refPoints buf w h (frameOffset wav.total_ticks elapsed)).length = (w + 2).toNat := by
    unfold refPoints
    simp only [List.length_cons, List.length_map, List.length_range]
    omega
  obtain ⟨ha, hf⟩ := window_arith _ h0 h1
  generalize hoff : frameOffset wav.total_ticks elapsed = off at *
  have hskip : Int.tdiv (min off 4096) (w * 2) = min off 4096 / (2 * w) := by
    rw [Int.tdiv_eq_ediv (le_min (le_of_lt h0) (by decide)) (by positivity), mul_comm]
  have hn : (w + 2).toNat = (w + 1).toNat + 1 := by
    clear ha hf hloop hlen hin
    omega
  have hbase : off * (4 * 2) / 4 = 2 * off := by
    clear ha hf hloop hlen hin
    omega
  have hne : ¬ (min (off * 8) 32768 = 0) := by
    clear ha hf hloop hlen hin
    omega
  have hw2 : ¬ (w * 2 = 0) := by
    clear ha hf hloop hlen hin
    omega
  have hwp : writePoint ({ x := F32.fin 0, y := F32.fin 0 }
        :: List.replicate (w + 1).toNat { x := F32.fin 0, y := F32.fin 0 }) 0
        { x := F32.fin 0, y := F32.mul (F32.ofInt h) F32.half }
      = .ok ({ x := F32.fin 0, y := F32.mul (F32.ofInt h) F32.half }
        :: List.replicate (w + 1).toNat { x := F32.fin 0, y := F32.fin 0 }) :=
    writePoint_append [] _ _ _
  unfold RenderWaveform
  simp only [hb, hoff, ha, hf, hskip, hbase, hn, List.replicate_succ, hne, hw2, if_false, hwp, hloop,
    bind, Except.bind]
  rw [← hn, ← hlen, List.take_length]

theorem readSample_fault (buf : List F32) (idx : Int) (h : (buf.length : Int) ≤ idx) :
    readSample buf idx = .error (.readOutOfBounds idx) := by
  unfold readSample
  rw [if_neg (by omega)]
  have hnone : buf.get? idx.toNat = none := by
    rw [List.get?_eq_none]
    omega
  rw [hnone]

theorem waveLoop_fault (buf : List F32) (base skip w h : Int) (n : Nat) (i : Int) (s : LoopState)
    (e : Fault) (hr : readSample buf (base + (i * skip) * 2) = .error e) :
    waveLoop buf base skip w h (n + 1) i s = .error e := by
  rw [waveLoop]
  simp only [bind, Except.bind, hr]

theorem RenderWaveform_fault (wav : WaveData) (buf : List F32) (w h : Int) (elapsed : Nat)
    (hb : wav.buffer = some buf) (hw : 0 < w)
    (h0 : 0 < frameOffset wav.total_ticks elapsed)
    (h1 : frameOffset wav.total_ticks elapsed < 2 ^ 60)
    (hout : (buf.length : Int) ≤ 2 * frameOffset wav.total_ticks elapsed) :
    RenderWaveform wav w h elapsed
      = .error (.readOutOfBounds (2 * frameOffset wav.total_ticks elapsed)) := by
  obtain ⟨ha, hf⟩ := window_arith _ h0 h1
  generalize hoff : frameOffset wav.total_ticks elapsed = off at *
  have hn : (w + 2).toNat = (w + 1).toNat + 1 := by
    clear ha hf
    omega
  obtain ⟨n, hn1⟩ : ∃ n, (w + 1).toNat = n + 1 := ⟨w.toNat, by clear ha hf; omega⟩
  have hbase : off * (4 * 2) / 4 = 2 * off := by
    clear ha hf
    omega
  have hne : ¬ (min (off * 8) 32768 = 0) := by
    clear ha hf
    omega
  have hw2 : ¬ (w * 2 = 0) := by
    clear ha hf
    omega
  have hwp : writePoint ({ x := F32.fin 0, y := F32.fin 0 }
        :: List.replicate (w + 1).toNat { x := F32.fin 0, y := F32.fin 0 }) 0
        { x := F32.fin 0, y := F32.mul (F32.ofInt h) F32.half }
      = .ok ({ x := F32.fin 0, y := F32.mul (F32.ofInt h) F32.half }
        :: List.replicate (w + 1).toNat { x := F32.fin 0, y := F32.fin 0 }) :=
    writePoint_append [] _ _ _
  have hread : ∀ skip : Int, readSample buf (2 * off + 0 * skip * 2)
      = .error (.readOutOfBounds (2 * off)) := by
    intro skip
    have e : 2 * off + 0 * skip * 2 = 2 * off := by ring
    rw [e]
    exact readSample_fault buf _ hout
  unfold RenderWaveform
  simp only [hb, hoff, ha, hf, hbase, hn, List.replicate_succ, hne, hw2, if_false, hwp,
    bind, Except.bind]
  rw [hn1, waveLoop_fault buf _ _ w h n 0 _ _ (hread _)]

theorem frameOffset_eq (total elapsed : Nat) (he : elapsed < total) (ht : total < 2 ^ 31) :
    frameOffset total elapsed = refOffset ((total : Int) - (elapsed : Int)) := by
  unfold frameOffset refOffset
  have h1 : u64sub total elapsed = total - elapsed := by
    unfold u64sub
    have e64 : (2 : Int) ^ 64 = 18446744073709551616 := by norm_num
    rw [e64]
    have e31 : (2 : Nat) ^ 31 = 2147483648 := by norm_num
    rw [e31] at ht
    omega
  have h2 : toInt32 ((total - elapsed : Nat) : Int) = (total : Int) - (elapsed : Int) := by
    unfold toInt32
    have e31 : (2 : Nat) ^ 31 = 2147483648 := by norm_num
    rw [e31] at ht
    norm_num
    omega
  simp only [h1, h2]

set_option maxRecDepth 8000 in
theorem frameOffset_one_second : frameOffset 1000 0 = 44100 := by decide

set_option maxRecDepth 8000 in
theorem totalTicks_one_second : totalTicks 352800 = 1000 := by decide

set_option maxRecDepth 8000 in
theorem frameOffset_90 : frameOffset 90 0 = 3968 := by decide

theorem exactOffset_90 : exactOffset 90 = 3969 := by
  unfold exactOffset
  have e : (441 / 10 : ℚ) * ((90 : Int) : ℚ) = ((3969 : Int) : ℚ) := by norm_num
  rw [e, Int.floor_intCast]

theorem exactOffset_1000 : exactOffset 1000 = 44100 := by
  unfold exactOffset
  have e : (441 / 10 : ℚ) * ((1000 : Int) : ℚ) = ((44100 : Int) : ℚ) := by norm_num
  rw [e, Int.floor_intCast]

theorem oneSecondClip_fault :
    RenderWaveform oneSecondClip 640 480 0 = .error (.readOutOfBounds 88200) := by
  have h := RenderWaveform_fault oneSecondClip (List.replicate 88200 (F32.fin 0)) 640 480 0 rfl
    (by decide)
    (by rw [show oneSecondClip.total_ticks = 1000 from rfl, frameOffset_one_second]; decide)
    (by rw [show oneSecondClip.total_ticks = 1000 from rfl, frameOffset_one_second]; norm_num)
    (by
      rw [show oneSecondClip.total_ticks = 1000 from rfl, frameOffset_one_second,
        List.length_replicate]
      decide)
  rw [h, show oneSecondClip.total_ticks = 1000 from rfl, frameOffset_one_second]
  rfl

theorem waveLoop_step (buf : List F32) (base skip w h : Int) (n i : Nat) (px : F32)
    (pre rest : List SDL_FPoint) (r : SDL_FPoint)
    (h0 : 0 ≤ base + ((i : Int) * skip) * 2)
    (h1 : base + ((i : Int) * skip) * 2 + 1 < buf.length)
    (hroom : (pre.length : Int) < w + 2) :
    waveLoop buf base skip w h (n + 1) (i : Int)
        { prevx := px, pointidx := pre.length, points := pre ++ r :: rest }
      = waveLoop buf base skip w h n ((i + 1 : Nat) : Int)
          { prevx := F32.add px (F32.ofInt 2),
            pointidx := ((pre ++ [pointAt buf base skip h i (F32.add px (F32.ofInt 2))]).length : Int),
            points := (pre ++ [pointAt buf base skip h i (F32.add px (F32.ofInt 2))]) ++ rest } := by
  have hr0 := readSample_ok buf (base + ((i : Int) * skip) * 2) h0 (by omega)
  have hr1 := readSample_ok buf (base + ((i : Int) * skip) * 2 + 1) (by omega) h1
  rw [waveLoop]
  simp only [bind, Except.bind, hr0, hr1, if_pos hroom, writePoint_append]
  have e1 : ((i : Nat) : Int) + 1 = ((i + 1 : Nat) : Int) := by push_cast; rfl
  have e2 : (pre.length : Int) + 1
      = ((pre ++ [pointAt buf base skip h i (F32.add px (F32.ofInt 2))]).length : Int) := by
    simp
  have e3 : pre ++ pointAt buf base skip h i (F32.add px (F32.ofInt 2)) :: rest
      = (pre ++ [pointAt buf base skip h i (F32.add px (F32.ofInt 2))]) ++ rest := by
    simp
  have hpt : ({ x := F32.add px (F32.ofInt 2),
                y := yOf h (average (buf.getD (base + ((i : Int) * skip) * 2).toNat (F32.fin 0))
                  (buf.getD (base + ((i : Int) * skip) * 2 + 1).toNat (F32.fin 0))) } : SDL_FPoint)
      = pointAt buf base skip h i (F32.add px (F32.ofInt 2)) := rfl
  rw [hpt, e1, e2, e3]

theorem waveLoop_fault_at (buf : List F32) (base skip w h : Int) (hbase : 0 ≤ base)
    (hskip : 0 ≤ skip) :
    ∀ (k n i : Nat) (px : F32) (pre rest : List SDL_FPoint),
      k < n → rest.length = n → (pre.length : Int) + n ≤ w + 2 →
      (∀ j : Nat, j < k → base + (((i + j : Nat) : Int) * skip) * 2 + 1 < buf.length) →
      (buf.length : Int) ≤ base + (((i + k : Nat) : Int) * skip) * 2 →
      waveLoop buf base skip w h n (i : Int)
          { prevx := px, pointidx := pre.length, points := pre ++ rest }
        = .error (.readOutOfBounds (base + (((i + k : Nat) : Int) * skip) * 2)) := by
  intro k
  induction k with
  | zero =>
    intro n i px pre rest hk _ _ _ hout
    obtain ⟨m, rfl⟩ : ∃ m, n = m + 1 := ⟨n - 1, by omega⟩
    exact waveLoop_fault buf base skip w h m i _ _ (readSample_fault buf _ hout)
  | succ k ih =>
    intro n i px pre rest hk hlen hroom hin hout
    obtain ⟨m, rfl⟩ : ∃ m, n = m + 1 := ⟨n - 1, by omega⟩
    obtain ⟨r, rest', rfl⟩ : ∃ r rest', rest = r :: rest' := by
      cases rest with
      | nil => simp at hlen
      | cons r rest' => exact ⟨r, rest', rfl⟩
    have hlen' : rest'.length = m := by simpa using hlen
    have hin0 := hin 0 (Nat.succ_pos k)
    simp only [Nat.add_zero] at hin0
    have hnn : 0 ≤ ((i : Nat) : Int) * skip := Int.mul_nonneg (Int.ofNat_nonneg _) hskip
    rw [waveLoop_step buf base skip w h m i px pre rest' r (by omega) hin0
      (by push_cast at hroom; omega)]
    have e : i + (k + 1) = i + 1 + k := by omega
    rw [e] at hout ⊢
    exact ih m (i + 1) _ _ rest' (by omega) hlen' (by simp; push_cast at hroom; omega)
      (by
        intro j hj
        have := hin (j + 1) (Nat.succ_lt_succ hj)
        have e2 : i + 1 + j = i + (j + 1) := by omega
        rw [e2]
        exact this)
      hout

theorem RenderWaveform_fault_at (wav : WaveData) (buf : List F32) (w h : Int) (elapsed : Nat)
    (k : Nat) (hb : wav.buffer = some buf) (hw : 0 < w) (hk : (k : Int) ≤ w)
    (h0 : 0 < frameOffset wav.total_ticks elapsed)
    (h1 : frameOffset wav.total_ticks elapsed < 2 ^ 60)
    (hin : ∀ j : Nat, j < k →
      2 * frameOffset wav.total_ticks elapsed
        + ((j : Int) * (min (frameOffset wav.total_ticks elapsed) 4096 / (2 * w))) * 2 + 1
          < buf.length)
    (hout : (buf.length : Int) ≤ 2 * frameOffset wav.total_ticks elapsed
        + ((k : Int) * (min (frameOffset wav.total_ticks elapsed) 4096 / (2 * w))) * 2) :
    RenderWaveform wav w h elapsed
      = .error (.readOutOfBounds (2 * frameOffset wav.total_ticks elapsed
          + ((k : Int) * (min (frameOffset wav.total_ticks elapsed) 4096 / (2 * w))) * 2)) := by
  obtain ⟨ha, hf⟩ := window_arith _ h0 h1
  generalize hoff : frameOffset wav.total_ticks elapsed = off at *
  have hskip : Int.tdiv (min off 4096) (w * 2) = min off 4096 / (2 * w) := by
    rw [Int.tdiv_eq_ediv (le_min (le_of_lt h0) (by decide)) (by positivity), mul_comm]
  have hskip0 : 0 ≤ min off 4096 / (2 * w) :=
    Int.ediv_nonneg (le_min (le_of_lt h0) (by decide)) (by positivity)
  have hn : (w + 2).toNat = (w + 1).toNat + 1 := by
    clear ha hf hin hout
    omega
  have hbase : off * (4 * 2) / 4 = 2 * off := by
    clear ha hf hin hout
    omega
  have hne : ¬ (min (off * 8) 32768 = 0) := by
    clear ha hf hin hout
    omega
  have hw2 : ¬ (w * 2 = 0) := by
    clear ha hf hin hout
    omega
  have hwp : writePoint ({ x := F32.fin 0, y := F32.fin 0 }
        :: List.replicate (w + 1).toNat { x := F32.fin 0, y := F32.fin 0 }) 0
        { x := F32.fin 0, y := F32.mul (F32.ofInt h) F32.half }
      = .ok ({ x := F32.fin 0, y := F32.mul (F32.ofInt h) F32.half }
        :: List.replicate (w + 1).toNat { x := F32.fin 0, y := F32.fin 0 }) :=
    writePoint_append [] _ _ _
  have hloop := waveLoop_fault_at buf (2 * off) (min off 4096 / (2 * w)) w h
    (by clear ha hf hin hout; omega) hskip0 k (w + 1).toNat 0 (F32.fin 0)
    [{ x := F32.fin 0, y := F32.mul (F32.ofInt h) F32.half }]
    (List.replicate (w + 1).toNat { x := F32.fin 0, y := F32.fin 0 })
    (by clear ha hf hin hout; omega) (by simp)
    (by simp; clear ha hf hin hout; omega)
    (by
      intro j hj
      rw [Nat.zero_add]
      exact hin j hj)
    (by rw [Nat.zero_add]; exact hout)
  rw [Nat.zero_add] at hloop
  have e0 : ((0 : Nat) : Int) = 0 := rfl
  have e1 : (([{ x := F32.fin 0, y := F32.mul (F32.ofInt h) F32.half }] : List SDL_FPoint).length : Int)
      = 1 := rfl
  rw [e0, e1] at hloop
  simp only [List.singleton_append] at hloop
  unfold RenderWaveform
  simp only [hb, hoff, ha, hf, hskip, hbase, hn, List.replicate_succ, hne, hw2, if_false, hwp,
    hloop, bind, Except.bind]

set_option maxRecDepth 8000 in
theorem frameOffset_second_frame : frameOffset 1000 16 = 43394 := by decide

theorem oneSecondClip_fault_later :
    RenderWaveform oneSecondClip 640 480 16 = .error (.readOutOfBounds 88204) := by
  have hfo : frameOffset oneSecondClip.total_ticks 16 = 43394 := frameOffset_second_frame
  have h := RenderWaveform_fault_at oneSecondClip (List.replicate 88200 (F32.fin 0)) 640 480 16
    236 rfl (by decide) (by decide) (by rw [hfo]; decide) (by rw [hfo]; norm_num)
    (by
      intro j hj
      rw [hfo, List.length_replicate]
      have e : (min (43394 : Int) 4096 / (2 * 640)) = 3 := by decide
      rw [e]
      omega)
    (by
      rw [hfo, List.length_replicate]
      decide)
  rw [h, hfo]
  rfl

theorem toRat_scaled (x : Int) : (F32.fin (x * 2 ^ 149)).toRat = some (x : ℚ) := by
  unfold F32.toRat F32.unit
  simp only []
  congr 1
  push_cast
  exact mul_div_cancel_right₀ _ (by positivity)

theorem toRat_half_scaled (x : Int) : (F32.fin (x * 2 ^ 148)).toRat = some ((x : ℚ) / 2) := by
  unfold F32.toRat F32.unit
  simp only []
  congr 1
  push_cast
  rw [div_eq_div_iff (by norm_num) (by norm_num)]
  ring

/-- C4 (the code breaks it): for a one second clip (44100 frames,
`buffer_len` 352800, `total_ticks` 1000 as the loader computes it) started at
tick 5000 and a window 640 wide, the frame renderer calls `RenderWaveform`
with `elapsed < total_ticks` and the reads leave the buffer.  On the frame at
tick 5000 (`elapsed = 0`) `frame_offset` is 44100 and the first float read,
index 2 * (44100 + 0 * skip) = 88200, is not below `buffer_len / 4` = 88200.
On the frame at tick 5016 (`elapsed = 16`) `frame_offset` is 43394, `skip` is
3, and round 236 of the loop reads float index 2 * (43394 + 236 * 3) = 88204. -/
theorem C4_read_past_end_of_buffer :
    oneSecondClip.total_ticks = totalTicks oneSecondClip.buffer_len
    ∧ oneSecondClip.buffer.map List.length = some (oneSecondClip.buffer_len / 4).toNat
    ∧ renderItem 5000 640 480 (Function.update demoState.waves 3 oneSecondClip) 3
        = some (FrameItem.waveform 3 640 480 0 (RenderWaveform oneSecondClip 640 480 0))
    ∧ frameOffset oneSecondClip.total_ticks 0 = 44100
    ∧ ¬ (2 * (frameOffset oneSecondClip.total_ticks 0 + 0 * Int.tdiv (windowFrames 44100) (640 * 2))
          < oneSecondClip.buffer_len / 4)
    ∧ RenderWaveform oneSecondClip 640 480 0 = .error (.readOutOfBounds 88200)
    ∧ renderItem 5016 640 480 (Function.update demoState.waves 3 oneSecondClip) 3
        = some (FrameItem.waveform 3 640 480 16 (RenderWaveform oneSecondClip 640 480 16))
    ∧ RenderWaveform oneSecondClip 640 480 16 = .error (.readOutOfBounds 88204) := by
  refine ⟨totalTicks_one_second.symm, ?_, ?_, frameOffset_one_second, ?_, oneSecondClip_fault,
    ?_, oneSecondClip_fault_later⟩
  · show some (List.replicate 88200 (F32.fin 0)).length = some ((352800 : Int) / 4).toNat
    rw [List.length_replicate]
    rfl
  · unfold renderItem
    simp only [Function.update_same]
    rw [if_pos (by decide)]
    rfl
  · rw [show oneSecondClip.total_ticks = 1000 from rfl, frameOffset_one_second]
    decide
  · unfold renderItem
    simp only [Function.update_same]
    rw [if_pos (by decide)]
    rfl

/-- C9 (as stated, refuted): a loaded one second clip, a window 640 wide and
`elapsed = 0` meet every condition of the claim, yet `RenderWaveform` builds
no point list: the first frame it samples lies past the end of the buffer.
Besides, the offset is a single-precision product: `44100.0f / 1000.0f` is
44.09999847412109375, times 90 is 3968.9998626708984375, the nearest `float`
is 3968.999755859375, so for 90 remaining ticks the offset is 3968, while the
truncation of 44.1 * 90 is 3969. -/
theorem C9_counterexample :
    ¬ (∀ (wav : WaveData) (buf : List F32) (w h : Int) (elapsed : Nat),
        wav.buffer = some buf → wav.buffer_len = 4 * (buf.length : Int) →
        wav.total_ticks = totalTicks wav.buffer_len →
        0 < w → elapsed < wav.total_ticks →
        0 < exactOffset ((wav.total_ticks : Int) - (elapsed : Int)) →
        RenderWaveform wav w h elapsed
          = .ok [Draw.SetRenderDrawColor wav.r wav.g wav.b 255,
                 Draw.RenderLines
                   (refPoints buf w h (exactOffset ((wav.total_ticks : Int) - (elapsed : Int))))])
    ∧ frameOffset 90 0 = 3968 ∧ exactOffset 90 = 3969 := by
  refine ⟨?_, frameOffset_90, exactOffset_90⟩
  intro hall
  have hc := hall oneSecondClip (List.replicate 88200 (F32.fin 0)) 640 480 0 rfl
    (by rw [List.length_replicate]; rfl) totalTicks_one_second.symm (by decide) (by decide)
    (by
      rw [show ((oneSecondClip.total_ticks : Nat) : Int) - ((0 : Nat) : Int) = 1000 from rfl,
        exactOffset_1000]
      decide)
  rw [oneSecondClip_fault] at hc
  cases hc

/-- C9 (amended): for a clip with a buffer of at most `INT_MAX` bytes and
`total_ticks` below 2^31, a window width `w > 0`, any height `h`,
`elapsed < total_ticks`, a non-zero offset, and every sampled frame inside the
buffer, `RenderWaveform` draws exactly the reference point list: `offset` is
the truncated single-precision product of `44.1f` and `total_ticks - elapsed`,
`frames = min(offset, 4096)`, `stride = frames / (2*w)`, the list has `w + 2`
points, the first is `(0, h/2)`, and point `i + 1` has the height `yOf h` of
the average of the two channels of frame `offset + i*stride`.  No assertion
fails on the way.  For `|h| < 2^24` an average of +1.0 gives y = 0, of -1.0
gives y = h and of 0 gives y = h/2, exactly. -/
theorem C9_RenderWaveform_reference (wav : WaveData) (buf : List F32) (w h : Int) (elapsed : Nat)
    (hb : wav.buffer = some buf) (hlen : 4 * (buf.length : Int) ≤ 2147483647)
    (hw : 0 < w) (he : elapsed < wav.total_ticks) (ht : wav.total_ticks < 2 ^ 31)
    (h0 : 0 < refOffset ((wav.total_ticks : Int) - (elapsed : Int)))
    (hin : 2 * (refOffset ((wav.total_ticks : Int) - (elapsed : Int))
        + w * (min (refOffset ((wav.total_ticks : Int) - (elapsed : Int))) 4096 / (2 * w))) + 1
          < buf.length) :
    RenderWaveform wav w h elapsed
      = .ok [Draw.SetRenderDrawColor wav.r wav.g wav.b 255,
             Draw.RenderLines
               (refPoints buf w h (refOffset ((wav.total_ticks : Int) - (elapsed : Int))))]
    ∧ RenderWaveform wav w h elapsed ≠ .error .assertion
    ∧ (refPoints buf w h (refOffset ((wav.total_ticks : Int) - (elapsed : Int)))).length
        = (w + 2).toNat
    ∧ (refPoints buf w h (refOffset ((wav.total_ticks : Int) - (elapsed : Int)))).head?
        = some { x := F32.fin 0, y := F32.mul (F32.ofInt h) F32.half }
    ∧ (∀ i : Nat, (i : Int) ≤ w →
        ((refPoints buf w h (refOffset ((wav.total_ticks : Int) - (elapsed : Int)))).get? (i + 1)).map
            SDL_FPoint.y
          = some (yOf h (average
              (buf.getD (2 * (refOffset ((wav.total_ticks : Int) - (elapsed : Int))
                + (i : Int) * (min (refOffset ((wav.total_ticks : Int) - (elapsed : Int))) 4096
                    / (2 * w)))).toNat (F32.fin 0))
              (buf.getD (2 * (refOffset ((wav.total_ticks : Int) - (elapsed : Int))
                + (i : Int) * (min (refOffset ((wav.total_ticks : Int) - (elapsed : Int))) 4096
                    / (2 * w))) + 1).toNat (F32.fin 0)))))
    ∧ (h.natAbs < 2 ^ 24 →
        (yOf h (average F32.one F32.one)).toRat = some 0
        ∧ (yOf h (average F32.negOne F32.negOne)).toRat = some (h : ℚ)
        ∧ (yOf h (average (F32.fin 0) (F32.fin 0))).toRat = some ((h : ℚ) / 2)
        ∧ (F32.mul (F32.ofInt h) F32.half).toRat = some ((h : ℚ) / 2)) := by
  have hfo := frameOffset_eq wav.total_ticks elapsed he ht
  generalize refOffset ((wav.total_ticks : Int) - (elapsed : Int)) = off at *
  have hstride : 0 ≤ w * (min off 4096 / (2 * w)) :=
    Int.mul_nonneg (le_of_lt hw) (Int.ediv_nonneg (le_min (le_of_lt h0) (by decide)) (by omega))
  have h1 : off < 2 ^ 60 := by
    have e : (2 : Int) ^ 60 = 1152921504606846976 := by norm_num
    rw [e]
    omega
  have hok := RenderWaveform_ok wav buf w h elapsed hb hw (by rw [hfo]; exact h0)
    (by rw [hfo]; exact h1) (by rw [hfo]; exact hin)
  rw [hfo] at hok
  refine ⟨hok, ?_, ?_, rfl, ?_, ?_⟩
  · rw [hok]
    intro hcontra
    cases hcontra
  · unfold refPoints
    simp only [List.length_cons, List.length_map, List.length_range]
    omega
  · intro i hi
    unfold refPoints
    have hlt : i < (w + 1).toNat := by omega
    rw [List.get?_eq_getElem?, List.getElem?_cons_succ, List.getElem?_map,
      List.getElem?_range hlt]
    rfl
  · intro hh
    rw [average_one, average_negOne, average_zero, yOf_one h hh, yOf_negOne h hh, yOf_zero h hh]
    refine ⟨?_, toRat_scaled h, toRat_half_scaled h, ?_⟩
    · show some (((0 : Int) : ℚ) / ((F32.unit : Nat) : ℚ)) = some 0
      rw [Int.cast_zero, zero_div]
    · have h2 := F32.mul_half_exact h hh 1 (Or.inl rfl)
      simp only [one_mul] at h2
      rw [F32.ofInt_exact h hh]
      unfold F32.half
      rw [h2]
      exact toRat_half_scaled h

set_option maxRecDepth 8000 in
theorem refOffset_last_tick : refOffset (((1000 : Nat) : Int) - ((999 : Nat) : Int)) = 44 := by
  decide

theorem C9_RenderWaveform_reference_witness :
    RenderWaveform oneSecondClip 640 480 999
      = .ok [Draw.SetRenderDrawColor oneSecondClip.r oneSecondClip.g oneSecondClip.b 255,
             Draw.RenderLines
               (refPoints (List.replicate 88200 (F32.fin 0)) 640 480
                 (refOffset ((oneSecondClip.total_ticks : Int) - ((999 : Nat) : Int))))] :=
  (C9_RenderWaveform_reference oneSecondClip (List.replicate 88200 (F32.fin 0)) 640 480 999 rfl
    (by rw [List.length_replicate]; decide) (by decide) (by decide) (by decide)
    (by
      rw [show ((oneSecondClip.total_ticks : Nat) : Int) = ((1000 : Nat) : Int) from rfl,
        refOffset_last_tick]
      decide)
    (by
      rw [show ((oneSecondClip.total_ticks : Nat) : Int) = ((1000 : Nat) : Int) from rfl,
        refOffset_last_tick, List.length_replicate]
      decide)).1

theorem freshPlayback_waves :
    freshPlayback.waves = Function.update demoState.waves 3 oneSecondClip := by
  unfold freshPlayback
  rw [HandleButton_in_range,
    handleSlot_rising_start ⟨fun _ => 0, 5000⟩
      (demoState.setWave 3 { oneSecondClip with start_ticks := 0 }) 3 7 rfl rfl rfl]
  simp only [State.setWave, State.setButton, Function.update_same, Function.update_idem]
  rfl

theorem finRange_split :
    List.finRange MAX_WAVES
      = [0, 1, 2] ++ (3 : Fin MAX_WAVES)
        :: [4, 5, 6, 7, 8, 9, 10, 11, 12, 13, 14, 15, 16, 17, 18, 19, 20, 21, 22, 23, 24, 25,
            26, 27, 28, 29, 30, 31] := by
  decide

/-- C8 (the code breaks it): slot 3 holds a loaded one second clip; button 3
goes down at tick 5000 and starts it, and the frame at tick 5000 runs the
playing-slot pass in a window of 640 by 480.  Slot 3 is marked playing and
`now - start_ticks = 0 < total_ticks = 1000`, so the pass calls
`RenderWaveform` for it, and that call reads float 88200 of a buffer of 88200
floats: the pass and the frame end in that fault, no waveform is drawn for
the slot and the pass is not carried through.  This is the defect of C4. -/
theorem C8_pass_faults_on_fresh_playback :
    freshPlayback.waves 3 = oneSecondClip
    ∧ (freshPlayback.waves 3).start_ticks ≠ 0
    ∧ u64sub 5000 (freshPlayback.waves 3).start_ticks < (freshPlayback.waves 3).total_ticks
    ∧ playingPass 5000 640 480 (List.finRange MAX_WAVES) freshPlayback.waves
        = .error (.readOutOfBounds 88200)
    ∧ SDL_AppIterate freshPlayback 640 480 5000 = .error (.readOutOfBounds 88200)
    ∧ run (demoState.setWave 3 { oneSecondClip with start_ticks := 0 })
        [.button ⟨fun _ => 0, 5000⟩ 3 true, .frame 640 480 5000]
        = .error (.readOutOfBounds 88200) := by
  have hw3 : freshPlayback.waves 3 = oneSecondClip := by
    rw [freshPlayback_waves, Function.update_same]
  have hpass : playingPass 5000 640 480 (List.finRange MAX_WAVES) freshPlayback.waves
      = .error (.readOutOfBounds 88200) := by
    rw [finRange_split]
    apply playingPass_fault 5000 640 480 [0, 1, 2] _ 3 (by decide) freshPlayback.waves
    · intro j hj h0
      exfalso
      apply h0
      rw [freshPlayback_waves]
      simp only [List.mem_cons, List.mem_singleton, List.not_mem_nil, or_false] at hj
      rcases hj with rfl | rfl | rfl <;> rfl
    · rw [hw3]; decide
    · rw [hw3]; decide
    · rw [hw3]
      exact oneSecondClip_fault
  have hit : SDL_AppIterate freshPlayback 640 480 5000 = .error (.readOutOfBounds 88200) := by
    simp only [SDL_AppIterate, hpass]
  refine ⟨hw3, by rw [hw3]; decide, by rw [hw3]; decide, hpass, hit, ?_⟩
  have hstep : step (demoState.setWave 3 { oneSecondClip with start_ticks := 0 })
      (.button ⟨fun _ => 0, 5000⟩ 3 true)
      = .ok (freshPlayback,
          callsOf (HandleButton ⟨fun _ => 0, 5000⟩
            (demoState.setWave 3 { oneSecondClip with start_ticks := 0 }) 3 true).2) := rfl
  have hstep2 : step freshPlayback (.frame 640 480 5000) = .error (.readOutOfBounds 88200) := by
    simp only [step, hit]
  simp only [run, hstep, hstep2]

end Soundboard
